import Mathlib

/-!
# Cosmos transaction signer

A shallow embedding of `src/Cosmos/Signer.cpp` (namespace `TW::Cosmos`) and the
properties of it that the specification states.

Conventions of the embedding.

* A `std::string` holding text (denominations, addresses, memo, chain id, JSON
  text, base64 text) is a `String`; a `std::string` or `TW::Data` holding binary
  data (serialized records, keys, digests, signatures) is a `Data`.  The
  conversions between the two binary representations (`TW::data(...)`,
  `std::string(sig.begin(), sig.end())`) are the identity.
* Everything the file calls but does not define is a capability record that the
  functions take as an argument: key validation, hashing and signing
  (`PrivateKey.h`, `Hash.h`), the protocol-buffer serializers of the generated
  record types, the JSON document builders of `JsonSerialization.h`, and
  `Base64::encode`.
* A C++ call either returns, throws, or ends the program; `noexcept` turns a
  throw into the end of the program (`std::terminate`).
-/

namespace TW

/-- Binary data: `TW::Data`, and every `std::string` that carries bytes. -/
abbrev Data := List UInt8

/-- UTF-8 bytes of a text, the conversion `TW::data(const std::string&)` on text. -/
def data (s : String) : Data := s.data.flatMap String.utf8EncodeChar

/-! ## Control flow of a C++ call -/

/-- How a C++ call ends: it returns a value, an exception leaves it, or the
program is ended by `std::terminate`. -/
inductive Outcome (α : Type) where
  | returned (value : α)
  | thrown (what : String)
  | terminated
  deriving Repr, DecidableEq

namespace Outcome

/-- Sequencing: the rest of the function body runs only if the call returned. -/
def bind {α β : Type} (x : Outcome α) (f : α → Outcome β) : Outcome β :=
  match x with
  | returned a => f a
  | thrown w => thrown w
  | terminated => terminated

instance : Monad Outcome where
  pure := Outcome.returned
  bind := Outcome.bind

/-- A function declared `noexcept`: an exception that would leave it ends the
program instead. -/
def noexcept {α : Type} (x : Outcome α) : Outcome α :=
  match x with
  | thrown _ => terminated
  | o => o

end Outcome

/-! ## External capabilities -/

/-- Curve identifiers of `TWCurve`; the signer names `TWCurveSECP256k1` only. -/
inductive TWCurve where
  | TWCurveSECP256k1
  | TWCurveOther (id : Nat)
  deriving Repr, DecidableEq

/-- Public key kinds of `TWPublicKeyType`; the signer names
`TWPublicKeyTypeSECP256k1` only. -/
inductive TWPublicKeyType where
  | TWPublicKeyTypeSECP256k1
  | TWPublicKeyTypeOther (id : Nat)
  deriving Repr, DecidableEq

/-- Key, hash and signature capability (`PrivateKey.h`, `Hash.h`), consumed as
given functions. -/
structure Crypto where
  /-- `PrivateKey::isValid`: the key bytes the constructor accepts. -/
  isValid : Data → Bool
  /-- `privateKey.getPublicKey(type).bytes` for the key with the given bytes. -/
  getPublicKey : Data → TWPublicKeyType → Data
  /-- `privateKey.sign(digest, curve)` for the key with the given bytes. -/
  sign : Data → Data → TWCurve → Data
  /-- `Hash::sha256`. -/
  sha256 : Data → Data

/-- A constructed `PrivateKey` object. -/
structure PrivateKey where
  bytes : Data
  deriving Repr, DecidableEq

/-- Modelled from the spec: the constructor `PrivateKey(const Data&)` of
`PrivateKey.h`, which is not among the sources.  The key capability "is expected
to fail the operation when invalid"; a constructor fails by throwing, here
`std::invalid_argument` on bytes that `isValid` rejects. -/
def PrivateKey.new (c : Crypto) (bytes : Data) : Outcome PrivateKey :=
  if c.isValid bytes then Outcome.returned { bytes := bytes }
  else Outcome.thrown "Invalid private key data"

/-! ## Input and output records (`proto/Cosmos.pb.h`) -/

namespace Cosmos
namespace Proto

/-- Record `Proto::Amount`: a denomination and a 64-bit integer amount. -/
structure Amount where
  denom : String := ""
  amount : Int := 0
  deriving Repr, DecidableEq, Inhabited

/-- Record `Proto::Fee`. -/
structure Fee where
  amounts : List Amount := []
  gas : Nat := 0
  deriving Repr, DecidableEq, Inhabited

/-- Record `Proto::Message::Send`. -/
structure Message.Send where
  from_address : String := ""
  to_address : String := ""
  amounts : List Amount := []
  deriving Repr, DecidableEq, Inhabited

/-- Record `Proto::Message`: a one-of over the message kinds.  The signer reads
the `send_coins_message` case only; every other kind is kept by its field number
and content. -/
inductive Message where
  | MESSAGE_ONEOF_NOT_SET
  | send_coins_message (send : Message.Send)
  | other_message (field_number : Nat) (content : Data)
  deriving Repr, DecidableEq, Inhabited

/-- Accessor `has_send_coins_message()`. -/
def Message.has_send_coins_message : Message → Bool
  | .send_coins_message _ => true
  | _ => false

/-- Accessor `send_coins_message()`: the default record when another case is set. -/
def Message.get_send_coins_message : Message → Message.Send
  | .send_coins_message s => s
  | _ => {}

/-- Record `Proto::SigningInput`.  `signing_mode` is the stored enum value: a
proto3 enum field is open, it can hold values that no enumerator names, and
reads 0 when it was never set. -/
structure SigningInput where
  signing_mode : Int := 0
  account_number : Nat := 0
  chain_id : String := ""
  fee : Fee := {}
  memo : String := ""
  sequence : Nat := 0
  private_key : Data := []
  messages : List Message := []
  deriving Repr, DecidableEq, Inhabited

/-- Record `Proto::SigningOutput`. -/
structure SigningOutput where
  signature : Data := []
  json : String := ""
  serialized : Data := []
  serialized_base64 : String := ""
  deriving Repr, DecidableEq, Inhabited

/-- Numbering of the enumerators `Proto::JSON` and `Proto::Protobuf`, declared in
`Cosmos.proto`. -/
structure SigningModeValues where
  JSON : Int
  Protobuf : Int
  distinct : JSON ≠ Protobuf

end Proto
end Cosmos

/-! ## Ledger records (`Protobuf/*.pb.h`)

Only the fields that the signer writes are modelled; a sub-record that can be
present or absent is an `Option`. -/

namespace cosmos

/-- Record `cosmos::base::v1beta1::Coin`. -/
structure base.v1beta1.Coin where
  denom : String := ""
  amount : String := ""
  deriving Repr, DecidableEq, Inhabited

/-- Record `cosmos::bank::v1beta1::MsgSend`. -/
structure bank.v1beta1.MsgSend where
  from_address : String := ""
  to_address : String := ""
  amount : List base.v1beta1.Coin := []
  deriving Repr, DecidableEq, Inhabited

/-- Record `google::protobuf::Any`: a type-tagged wrapper of a serialized record. -/
structure Any where
  type_url : String := ""
  value : Data := []
  deriving Repr, DecidableEq, Inhabited

/-- Record `cosmos::TxBody`. -/
structure TxBody where
  messages : List Any := []
  memo : String := ""
  timeout_height : Nat := 0
  deriving Repr, DecidableEq, Inhabited

/-- Record `cosmos::crypto::secp256k1::PubKey`. -/
structure crypto.secp256k1.PubKey where
  key : Data := []
  deriving Repr, DecidableEq, Inhabited

/-- Enum `cosmos::signing::v1beta1::SignMode`. -/
inductive signing.v1beta1.SignMode where
  | SIGN_MODE_UNSPECIFIED
  | SIGN_MODE_DIRECT
  | SIGN_MODE_TEXTUAL
  | SIGN_MODE_LEGACY_AMINO_JSON
  deriving Repr, DecidableEq, Inhabited

/-- Record `cosmos::ModeInfo`: a one-of; the signer sets its `single` case. -/
inductive ModeInfo where
  | SUM_NOT_SET
  | single (mode : signing.v1beta1.SignMode)
  deriving Repr, DecidableEq, Inhabited

/-- Record `cosmos::SignerInfo`. -/
structure SignerInfo where
  public_key : Option Any := none
  mode_info : Option ModeInfo := none
  sequence : Nat := 0
  deriving Repr, DecidableEq, Inhabited

/-- Record `cosmos::Fee`. -/
structure Fee where
  amount : List base.v1beta1.Coin := []
  gas_limit : Nat := 0
  payer : String := ""
  granter : String := ""
  deriving Repr, DecidableEq, Inhabited

/-- Record `cosmos::AuthInfo`. -/
structure AuthInfo where
  signer_infos : List SignerInfo := []
  fee : Option Fee := none
  deriving Repr, DecidableEq, Inhabited

/-- Record `cosmos::SignDoc`. -/
structure SignDoc where
  body_bytes : Data := []
  auth_info_bytes : Data := []
  chain_id : String := ""
  account_number : Nat := 0
  deriving Repr, DecidableEq, Inhabited

/-- Record `cosmos::TxRaw`. -/
structure TxRaw where
  body_bytes : Data := []
  auth_info_bytes : Data := []
  signatures : List Data := []
  deriving Repr, DecidableEq, Inhabited

end cosmos

/-- Protocol-buffer capability: `SerializeAsString` of each generated record
type, and `JsonStringToMessage` into a `SigningInput`. -/
structure ProtobufCodec where
  serializeMsgSend : cosmos.bank.v1beta1.MsgSend → Data
  serializePubKey : cosmos.crypto.secp256k1.PubKey → Data
  serializeTxBody : cosmos.TxBody → Data
  serializeAuthInfo : cosmos.AuthInfo → Data
  serializeSignDoc : cosmos.SignDoc → Data
  serializeTxRaw : cosmos.TxRaw → Data
  /-- `google::protobuf::util::JsonStringToMessage(json, &input)`: whether the
  text parsed, and the record as the call leaves it. -/
  JsonStringToMessage : String → Cosmos.Proto.SigningInput → Bool × Cosmos.Proto.SigningInput

/-- The JSON documents of `JsonSerialization.h`. -/
structure JsonSerialization where
  /-- The JSON value type (`nlohmann::json`). -/
  json : Type
  signaturePreimageJSON : Cosmos.Proto.SigningInput → json
  transactionJSON : Cosmos.Proto.SigningInput → Data → json
  /-- Member `dump()`: the document as text. -/
  dump : json → String

/-- Everything the signer is given. -/
structure Capabilities where
  modes : Cosmos.Proto.SigningModeValues
  crypto : Crypto
  pb : ProtobufCodec
  js : JsonSerialization
  /-- `Base64::encode`. -/
  base64Encode : Data → String

/-! ## Library functions used by the signer -/

/-- The character of a decimal digit, `'0' + d`. -/
def digitChar (d : Nat) : Char := Char.ofNat (48 + d)

/-- The digit loop of `std::to_string`: writes the digits of `n` from the least
significant one, in front of `acc`.  `fuel` bounds the number of digits. -/
def toDecimalLoop : Nat → Nat → List Char → List Char
  | 0, _, acc => acc
  | fuel + 1, n, acc =>
    if n / 10 = 0 then digitChar (n % 10) :: acc
    else toDecimalLoop fuel (n / 10) (digitChar (n % 10) :: acc)

/-- Decimal digits of an unsigned value. -/
def toDecimal (n : Nat) : List Char := toDecimalLoop (n + 1) n []

/-- Function `std::to_string(long long)`: a minus sign for a negative value, then
the decimal digits of the magnitude. -/
def to_string (val : Int) : String :=
  if val < 0 then String.mk ('-' :: toDecimal val.natAbs)
  else String.mk (toDecimal val.natAbs)

/-- A counting loop `for (auto i = 0; i < n; ++i) body(i)` over a state. -/
def forLoop {σ : Type} (n : Nat) (body : Nat → σ → σ) (s : σ) : σ :=
  (List.range n).foldl (fun acc i => body i acc) s

/-- Function `GetTypeUrl` of the protocol-buffer library: the type url of a
record name under a namespace. -/
def GetTypeUrl (message_name : String) (type_url_namespace : String) : String :=
  if type_url_namespace ≠ "" ∧ type_url_namespace.back = '/' then
    type_url_namespace ++ message_name
  else
    type_url_namespace ++ "/" ++ message_name

/-- Member `Any::PackFrom(message, type_url_namespace)`, given the full name of
the record type and the record's serialization. -/
def Any.PackFrom (full_name : String) (serialized : Data) (type_url_namespace : String) :
    cosmos.Any :=
  { type_url := GetTypeUrl full_name type_url_namespace, value := serialized }

/-- The namespace that `PackFrom(message)` uses when it is given none. -/
def kTypeGoogleApisComNamespace : String := "type.googleapis.com/"

/-! ## The signer (`src/Cosmos/Signer.cpp`) -/

namespace Cosmos

open Outcome

/-- Constant `ProtobufAnyNamespacePrefix`, "to override default
'type.googleapis.com'". -/
def ProtobufAnyNamespacePrefix : String := ""

/-- Function `convertCoin`. -/
def convertCoin (amount : Proto.Amount) : cosmos.base.v1beta1.Coin :=
  let coin : cosmos.base.v1beta1.Coin := {}
  let coin := { coin with denom := amount.denom }
  let coin := { coin with amount := to_string amount.amount }
  coin

/-- Function `buildProtoTxBody`. -/
def buildProtoTxBody (pb : ProtobufCodec) (input : Proto.SigningInput) : Data :=
  if input.messages.length < 1 then
    []
  else if !(input.messages.getD 0 default).has_send_coins_message then
    []
  else
    let send := (input.messages.getD 0 default).get_send_coins_message
    let msgSend : cosmos.bank.v1beta1.MsgSend := {}
    let msgSend := { msgSend with from_address := send.from_address }
    let msgSend := { msgSend with to_address := send.to_address }
    let msgSend := forLoop send.amounts.length
      (fun i m => { m with amount := m.amount ++ [convertCoin (send.amounts.getD i default)] })
      msgSend
    let txBody : cosmos.TxBody := {}
    let txBody := { txBody with
      messages := txBody.messages ++
        [Any.PackFrom "cosmos.bank.v1beta1.MsgSend" (pb.serializeMsgSend msgSend)
          ProtobufAnyNamespacePrefix] }
    let txBody := { txBody with memo := input.memo }
    let txBody := { txBody with timeout_height := 0 }
    pb.serializeTxBody txBody

/-- Function `buildAuthInfo`. -/
def buildAuthInfo (caps : Capabilities) (input : Proto.SigningInput) : Outcome Data :=
  noexcept do
    let privateKey ← PrivateKey.new caps.crypto input.private_key
    let publicKey := caps.crypto.getPublicKey privateKey.bytes
      TWPublicKeyType.TWPublicKeyTypeSECP256k1
    let signerInfo : cosmos.SignerInfo := {}
    let pubKey : cosmos.crypto.secp256k1.PubKey := {}
    let pubKey := { pubKey with key := publicKey }
    let signerInfo := { signerInfo with
      public_key := some (Any.PackFrom "cosmos.crypto.secp256k1.PubKey"
        (caps.pb.serializePubKey pubKey) ProtobufAnyNamespacePrefix) }
    let signerInfo := { signerInfo with
      mode_info := some (cosmos.ModeInfo.single
        cosmos.signing.v1beta1.SignMode.SIGN_MODE_DIRECT) }
    let signerInfo := { signerInfo with sequence := input.sequence }
    let fee : cosmos.Fee := {}
    let fee := forLoop input.fee.amounts.length
      (fun i f => { f with amount := f.amount ++ [convertCoin (input.fee.amounts.getD i default)] })
      fee
    let fee := { fee with gas_limit := input.fee.gas }
    let fee := { fee with payer := "" }
    let fee := { fee with granter := "" }
    let authInfo : cosmos.AuthInfo := { signer_infos := [signerInfo], fee := some fee }
    return caps.pb.serializeAuthInfo authInfo

/-- Function `buildSignature`.  The range `[begin, end - 1)` copies all bytes of
the signed hash but the last; it is defined for a signed hash of at least one
byte, and the model gives the empty sequence for an empty one. -/
def buildSignature (caps : Capabilities) (input : Proto.SigningInput)
    (serializedTxBody : Data) (serializedAuthInfo : Data) : Outcome Data :=
  noexcept do
    let signDoc : cosmos.SignDoc := {}
    let signDoc := { signDoc with body_bytes := serializedTxBody }
    let signDoc := { signDoc with auth_info_bytes := serializedAuthInfo }
    let signDoc := { signDoc with chain_id := input.chain_id }
    let signDoc := { signDoc with account_number := input.account_number }
    let serializedSignDoc := caps.pb.serializeSignDoc signDoc
    let hashToSign := caps.crypto.sha256 serializedSignDoc
    let privateKey ← PrivateKey.new caps.crypto input.private_key
    let signedHash := caps.crypto.sign privateKey.bytes hashToSign TWCurve.TWCurveSECP256k1
    let signature := signedHash.dropLast
    return signature

/-- Function `buildProtoTxRaw`. -/
def buildProtoTxRaw (pb : ProtobufCodec) (_input : Proto.SigningInput)
    (serializedTxBody : Data) (serializedAuthInfo : Data) (signature : Data) : Data :=
  let txRaw : cosmos.TxRaw := {}
  let txRaw := { txRaw with body_bytes := serializedTxBody }
  let txRaw := { txRaw with auth_info_bytes := serializedAuthInfo }
  let txRaw := { txRaw with signatures := txRaw.signatures ++ [signature] }
  pb.serializeTxRaw txRaw

namespace Signer

/-- Function `Signer::signJsonSerialized`. -/
def signJsonSerialized (caps : Capabilities) (input : Proto.SigningInput) :
    Outcome Proto.SigningOutput :=
  noexcept do
    let key ← PrivateKey.new caps.crypto input.private_key
    let preimage := caps.js.dump (caps.js.signaturePreimageJSON input)
    let hash := caps.crypto.sha256 (data preimage)
    let signedHash := caps.crypto.sign key.bytes hash TWCurve.TWCurveSECP256k1
    let output : Proto.SigningOutput := {}
    let signature := signedHash.dropLast
    let txJson := caps.js.transactionJSON input signature
    let output := { output with json := caps.js.dump txJson }
    let output := { output with signature := signature }
    let output := { output with serialized := [] }
    let output := { output with serialized_base64 := "" }
    return output

/-- Function `Signer::signProtobuf`. -/
def signProtobuf (caps : Capabilities) (input : Proto.SigningInput) :
    Outcome Proto.SigningOutput :=
  noexcept do
    let serializedTxBody := buildProtoTxBody caps.pb input
    let serializedAuthInfo ← buildAuthInfo caps input
    let signature ← buildSignature caps input serializedTxBody serializedAuthInfo
    let serializedTxRaw :=
      buildProtoTxRaw caps.pb input serializedTxBody serializedAuthInfo signature
    let output : Proto.SigningOutput := {}
    let output := { output with serialized := serializedTxRaw }
    let output := { output with serialized_base64 := caps.base64Encode serializedTxRaw }
    let output := { output with signature := signature }
    let output := { output with json := "" }
    return output

/-- Function `Signer::sign`: the switch on `input.signing_mode()`. -/
def sign (caps : Capabilities) (input : Proto.SigningInput) : Outcome Proto.SigningOutput :=
  noexcept (
    if input.signing_mode = caps.modes.JSON then
      signJsonSerialized caps input
    else if input.signing_mode = caps.modes.Protobuf then
      signProtobuf caps input
    else
      signProtobuf caps input)

/-- Function `Signer::signJSON`.  The status that `JsonStringToMessage` returns is
not read. -/
def signJSON (caps : Capabilities) (json : String) (key : Data) : Outcome String := do
  let input : Proto.SigningInput := {}
  let (_, input) := caps.pb.JsonStringToMessage json input
  let input := { input with private_key := key }
  let output ← sign caps input
  return output.json

end Signer
end Cosmos

/-! ## Reference capabilities

A concrete instance of the capability records: the proto3 wire encoding of the
ledger records, standard base64, the enum numbering, and stand-ins for the key,
hash, signature and JSON capabilities.  The theorems hold for every instance;
this one shows that their hypotheses can be met. -/

namespace Wire

/-- Base-128 varint digits of `n`, least significant group first. -/
def varintLoop : Nat → Nat → Data
  | 0, _ => []
  | fuel + 1, n =>
    if n < 128 then [UInt8.ofNat n]
    else UInt8.ofNat (n % 128 + 128) :: varintLoop fuel (n / 128)

/-- Varint of a 64-bit value. -/
def varint (n : Nat) : Data := varintLoop 10 (n % 2 ^ 64)

/-- Field key: field number and wire type. -/
def key (field wireType : Nat) : Data := varint (field * 8 + wireType)

/-- A length-delimited field, always written. -/
def lengthDelimited (field : Nat) (content : Data) : Data :=
  key field 2 ++ varint content.length ++ content

/-- A singular `bytes` field: left out when empty. -/
def bytesField (field : Nat) (content : Data) : Data :=
  if content = [] then [] else lengthDelimited field content

/-- A singular `string` field: left out when empty. -/
def stringField (field : Nat) (text : String) : Data := bytesField field (data text)

/-- A singular `uint64` or enum field: left out when zero. -/
def varintField (field : Nat) (value : Nat) : Data :=
  if value = 0 then [] else key field 0 ++ varint value

/-- A repeated length-delimited field: every element is written. -/
def repeatedField {α : Type} (field : Nat) (encode : α → Data) (items : List α) : Data :=
  items.flatMap (fun item => lengthDelimited field (encode item))

/-- An optional sub-record: written when present, also when it is empty. -/
def optionalField {α : Type} (field : Nat) (encode : α → Data) (item : Option α) : Data :=
  match item with
  | none => []
  | some v => lengthDelimited field (encode v)

def encodeCoin (c : cosmos.base.v1beta1.Coin) : Data :=
  stringField 1 c.denom ++ stringField 2 c.amount

def encodeMsgSend (m : cosmos.bank.v1beta1.MsgSend) : Data :=
  stringField 1 m.from_address ++ stringField 2 m.to_address ++ repeatedField 3 encodeCoin m.amount

def encodeAny (a : cosmos.Any) : Data :=
  stringField 1 a.type_url ++ bytesField 2 a.value

def encodeTxBody (b : cosmos.TxBody) : Data :=
  repeatedField 1 encodeAny b.messages ++ stringField 2 b.memo ++ varintField 3 b.timeout_height

def encodePubKey (k : cosmos.crypto.secp256k1.PubKey) : Data := bytesField 1 k.key

def signModeNumber : cosmos.signing.v1beta1.SignMode → Nat
  | .SIGN_MODE_UNSPECIFIED => 0
  | .SIGN_MODE_DIRECT => 1
  | .SIGN_MODE_TEXTUAL => 2
  | .SIGN_MODE_LEGACY_AMINO_JSON => 127

def encodeModeInfo : cosmos.ModeInfo → Data
  | .SUM_NOT_SET => []
  | .single mode => lengthDelimited 1 (varintField 1 (signModeNumber mode))

def encodeSignerInfo (s : cosmos.SignerInfo) : Data :=
  optionalField 1 encodeAny s.public_key ++ optionalField 2 encodeModeInfo s.mode_info ++
    varintField 3 s.sequence

def encodeFee (f : cosmos.Fee) : Data :=
  repeatedField 1 encodeCoin f.amount ++ varintField 2 f.gas_limit ++ stringField 3 f.payer ++
    stringField 4 f.granter

def encodeAuthInfo (a : cosmos.AuthInfo) : Data :=
  repeatedField 1 encodeSignerInfo a.signer_infos ++ optionalField 2 encodeFee a.fee

def encodeSignDoc (d : cosmos.SignDoc) : Data :=
  bytesField 1 d.body_bytes ++ bytesField 2 d.auth_info_bytes ++ stringField 3 d.chain_id ++
    varintField 4 d.account_number

def encodeTxRaw (t : cosmos.TxRaw) : Data :=
  bytesField 1 t.body_bytes ++ bytesField 2 t.auth_info_bytes ++
    repeatedField 3 (fun sig => sig) t.signatures

/-- Stand-in for the JSON reader: it accepts the empty object, which sets no
field, and the object that sets the selector to `Protobuf` (number 1) and nothing
else; it rejects every other text, leaving the record as it was. -/
def readJson (json : String) (input : Cosmos.Proto.SigningInput) :
    Bool × Cosmos.Proto.SigningInput :=
  if json == "\x7b\"signingMode\":\"Protobuf\"\x7d" then
    (true, { input with signing_mode := 1 })
  else
    (json == "\x7b\x7d", input)

/-- The proto3 wire encoding as a protocol-buffer capability. -/
def codec : ProtobufCodec where
  serializeMsgSend := encodeMsgSend
  serializePubKey := encodePubKey
  serializeTxBody := encodeTxBody
  serializeAuthInfo := encodeAuthInfo
  serializeSignDoc := encodeSignDoc
  serializeTxRaw := encodeTxRaw
  JsonStringToMessage := readJson

end Wire

namespace Reference

/-- Stand-in digest: 32 bytes, a running sum of the input.  Not SHA-256. -/
def digest (d : Data) : Data :=
  (List.range 32).map (fun i => d.foldl (fun acc b => acc * 31 + b + UInt8.ofNat i) 7)

/-- Stand-in signature: 64 bytes derived from key and digest, then a recovery
byte.  Not ECDSA. -/
def signature (keyBytes digestBytes : Data) (_curve : TWCurve) : Data :=
  (digestBytes ++ keyBytes ++ List.replicate 64 0).take 64 ++ [1]

/-- Stand-in key capability: 32-byte keys are accepted, the public key is the
key behind a marker byte. -/
def crypto : Crypto where
  isValid := fun k => k.length == 32
  getPublicKey := fun k _ => 2 :: k
  sign := signature
  sha256 := digest

/-- Stand-in JSON documents: a document is its text. -/
def js : JsonSerialization where
  json := String
  signaturePreimageJSON := fun input =>
    "\x7b\"chain_id\":\"" ++ input.chain_id ++ "\",\"memo\":\"" ++ input.memo ++ "\"\x7d"
  transactionJSON := fun input sig =>
    "\x7b\"memo\":\"" ++ input.memo ++ "\",\"signature_bytes\":" ++ toString sig.length ++ "\x7d"
  dump := fun doc => doc

/-- The character of a 6-bit value in the standard base64 alphabet. -/
def base64Char (v : Nat) : Char :=
  if v < 26 then Char.ofNat (65 + v)
  else if v < 52 then Char.ofNat (97 + (v - 26))
  else if v < 62 then Char.ofNat (48 + (v - 52))
  else if v = 62 then '+'
  else '/'

/-- Modelled from the spec: the characters of the "standard base64 text
rendering" that `Base64::encode` (`Base64.h`, not among the sources) gives, with
padding: three bytes give four characters. -/
def base64Chars : Data → List Char
  | [] => []
  | [a] =>
    [base64Char (a.toNat / 4), base64Char (a.toNat % 4 * 16), '=', '=']
  | [a, b] =>
    [base64Char (a.toNat / 4), base64Char (a.toNat % 4 * 16 + b.toNat / 16),
      base64Char (b.toNat % 16 * 4), '=']
  | a :: b :: c :: rest =>
    base64Char (a.toNat / 4) :: base64Char (a.toNat % 4 * 16 + b.toNat / 16) ::
      base64Char (b.toNat % 16 * 4 + c.toNat / 64) :: base64Char (c.toNat % 64) ::
      base64Chars rest

/-- Modelled from the spec: `Base64::encode` of `Base64.h`, which is not among the
sources; the specification asks for the "standard base64 text rendering" of the
bytes. -/
def base64 (d : Data) : String := String.mk (base64Chars d)

/-- The 6-bit value of a character of the standard base64 alphabet. -/
def base64Value (c : Char) : Option Nat :=
  if 65 ≤ c.toNat ∧ c.toNat ≤ 90 then some (c.toNat - 65)
  else if 97 ≤ c.toNat ∧ c.toNat ≤ 122 then some (c.toNat - 97 + 26)
  else if 48 ≤ c.toNat ∧ c.toNat ≤ 57 then some (c.toNat - 48 + 52)
  else if c = '+' then some 62
  else if c = '/' then some 63
  else none

/-- Standard base64 decoding: four characters give three bytes, the last group
may be padded. -/
def base64DecodeChars : List Char → Option Data
  | [] => some []
  | c1 :: c2 :: c3 :: c4 :: rest =>
    match base64Value c1, base64Value c2 with
    | some v1, some v2 =>
      if c3 = '=' ∧ c4 = '=' ∧ rest = [] then
        some [UInt8.ofNat (v1 * 4 + v2 / 16)]
      else
        match base64Value c3 with
        | some v3 =>
          if c4 = '=' ∧ rest = [] then
            some [UInt8.ofNat (v1 * 4 + v2 / 16), UInt8.ofNat (v2 % 16 * 16 + v3 / 4)]
          else
            match base64Value c4, base64DecodeChars rest with
            | some v4, some tail =>
              some (UInt8.ofNat (v1 * 4 + v2 / 16) :: UInt8.ofNat (v2 % 16 * 16 + v3 / 4) ::
                UInt8.ofNat (v3 % 4 * 64 + v4) :: tail)
            | _, _ => none
        | none => none
    | _, _ => none
  | _ => none

/-- The bytes that a standard base64 text stands for, if it is one. -/
def base64Decode (text : String) : Option Data := base64DecodeChars text.data

/-- The numbering of the reference capabilities: `JSON` 0 and `Protobuf` 1.  It
is one instance of the parameter and is taken from no document: the declaration
of the enum (`Cosmos.proto`) is not among the sources, and the specification
gives the enumerators no numbers. -/
def modes : Cosmos.Proto.SigningModeValues :=
  { JSON := 0, Protobuf := 1, distinct := by decide }

/-- The reference capabilities. -/
def caps : Capabilities where
  modes := modes
  crypto := crypto
  pb := Wire.codec
  js := js
  base64Encode := base64

/-- A 32-byte key, which the reference key capability accepts. -/
def sampleKey : Data := List.replicate 32 5

/-- A transfer of 1 muon. -/
def sampleSend : Cosmos.Proto.Message.Send :=
  { from_address := "cosmos1hsk6jryyqjfhp5dhc55tc9jtckygx0eph6dd02",
    to_address := "cosmos1zt50azupanqlfam5afhv3hexwyutnukeh4c573",
    amounts := [{ denom := "muon", amount := 1 }] }

/-- A PROTOBUF-mode input with one Send message. -/
def sendInput : Cosmos.Proto.SigningInput :=
  { signing_mode := 1,
    account_number := 1037,
    chain_id := "gaia-13003",
    fee := { amounts := [{ denom := "muon", amount := 200 }], gas := 200000 },
    memo := "",
    sequence := 8,
    private_key := sampleKey,
    messages := [Cosmos.Proto.Message.send_coins_message sampleSend] }

/-- The same input with no message at all. -/
def emptyInput : Cosmos.Proto.SigningInput := { sendInput with messages := [] }

/-- The same input with the JSON selector. -/
def jsonInput : Cosmos.Proto.SigningInput := { sendInput with signing_mode := 0 }

/-- An input whose first message is not a Send. -/
def otherInput : Cosmos.Proto.SigningInput :=
  { sendInput with
    messages := [Cosmos.Proto.Message.other_message 2 [1, 2, 3],
      Cosmos.Proto.Message.send_coins_message sampleSend] }

/-- An input on which no field was ever set, but for the key. -/
def unsetInput : Cosmos.Proto.SigningInput := { private_key := sampleKey }

/-- An input whose only message is a Send with every field empty. -/
def blankSendInput : Cosmos.Proto.SigningInput :=
  { signing_mode := 1,
    private_key := sampleKey,
    messages := [Cosmos.Proto.Message.send_coins_message {}] }

/-- The sample input followed by two more messages, with other fee, chain id,
account number, sequence and key. -/
def crowdedInput : Cosmos.Proto.SigningInput :=
  { signing_mode := 1,
    account_number := 7,
    chain_id := "elsewhere-1",
    fee := { amounts := [], gas := 1 },
    memo := "",
    sequence := 99,
    private_key := List.replicate 32 9,
    messages := [Cosmos.Proto.Message.send_coins_message sampleSend,
      Cosmos.Proto.Message.other_message 2 [1, 2, 3],
      Cosmos.Proto.Message.send_coins_message {}] }

/-- The sample input with a key of 3 bytes, which the reference key capability
rejects. -/
def shortKeyInput : Cosmos.Proto.SigningInput := { sendInput with private_key := [1, 2, 3] }

/-- A text that is not JSON. -/
def malformedText : String := "not json"

/-- The JSON text of an input that sets the selector to `Protobuf` and nothing
else. -/
def protobufText : String := "\x7b\"signingMode\":\"Protobuf\"\x7d"

end Reference

/-! ## Properties -/

namespace Outcome

@[simp]
theorem bind_returned {α β : Type} (a : α) (f : α → Outcome β) :
    (Outcome.returned a >>= f) = f a := rfl

@[simp]
theorem bind_thrown {α β : Type} (w : String) (f : α → Outcome β) :
    (Outcome.thrown w >>= f) = Outcome.thrown w := rfl

@[simp]
theorem bind_terminated {α β : Type} (f : α → Outcome β) :
    (Outcome.terminated >>= f) = Outcome.terminated := rfl

@[simp]
theorem pure_eq_returned {α : Type} (a : α) : (pure a : Outcome α) = Outcome.returned a := rfl

@[simp]
theorem noexcept_returned {α : Type} (a : α) :
    noexcept (Outcome.returned a) = Outcome.returned a := rfl

@[simp]
theorem noexcept_thrown {α : Type} (w : String) :
    noexcept (Outcome.thrown w : Outcome α) = Outcome.terminated := rfl

@[simp]
theorem noexcept_terminated {α : Type} :
    noexcept (Outcome.terminated : Outcome α) = Outcome.terminated := rfl

/-- A `noexcept` call never ends with an exception leaving it. -/
theorem noexcept_ne_thrown {α : Type} (x : Outcome α) (w : String) :
    noexcept x ≠ Outcome.thrown w := by
  cases x <;> simp [noexcept]

/-- Wrapping a `noexcept` call in `noexcept` again changes nothing. -/
@[simp]
theorem noexcept_noexcept {α : Type} (x : Outcome α) : noexcept (noexcept x) = noexcept x := by
  cases x <;> rfl

end Outcome

/-- The key constructor returns on accepted bytes. -/
theorem PrivateKey.new_of_valid (c : Crypto) (bytes : Data) (h : c.isValid bytes = true) :
    PrivateKey.new c bytes = Outcome.returned { bytes := bytes } := by
  simp [PrivateKey.new, h]

/-- The key constructor throws on rejected bytes. -/
theorem PrivateKey.new_of_invalid (c : Crypto) (bytes : Data) (h : c.isValid bytes = false) :
    PrivateKey.new c bytes = Outcome.thrown "Invalid private key data" := by
  simp [PrivateKey.new, h]

/-- Reading a list by index over its whole range gives the list back. -/
theorem map_range_getD {α β : Type} (f : α → β) (d : α) (xs : List α) :
    (List.range xs.length).map (fun i => f (xs.getD i d)) = xs.map f := by
  apply List.ext_getElem
  · simp
  · intro i h1 h2
    simp only [List.length_map, List.length_range] at h1
    simp [List.getElem?_eq_getElem h1]

/-- A counting loop that appends one element per round appends the elements in
index order. -/
theorem foldl_range_append {β : Type} (g : Nat → β) (n : Nat) (init : List β) :
    (List.range n).foldl (fun acc i => acc ++ [g i]) init = init ++ (List.range n).map g := by
  induction n with
  | zero => simp
  | succ k ih => simp [List.range_succ, List.foldl_append, ih]

/-! ### Decimal rendering -/

/-- A digit character reads back as its digit. -/
theorem digitChar_toNat (d : Nat) (h : d < 10) : (digitChar d).toNat = 48 + d := by
  interval_cases d <;> rfl

/-- A digit character is a decimal digit. -/
theorem digitChar_isDigit (d : Nat) (h : d < 10) : (digitChar d).isDigit = true := by
  interval_cases d <;> rfl

/-- Only the digit 0 is written as the character 0. -/
theorem digitChar_eq_zero (d : Nat) (h : d < 10) (h0 : digitChar d = '0') : d = 0 := by
  have h1 := digitChar_toNat d h
  rw [h0] at h1
  have h2 : ('0' : Char).toNat = 48 := rfl
  omega

/-- The digit loop writes the digits of a positive number, most significant
first, when the fuel exceeds the number. -/
theorem toDecimalLoop_eq (fuel : Nat) :
    ∀ (n : Nat) (acc : List Char), 0 < n → n < fuel →
      toDecimalLoop fuel n acc = (Nat.digits 10 n).reverse.map digitChar ++ acc := by
  induction fuel with
  | zero => intro n acc _ h; omega
  | succ k ih =>
    intro n acc hpos hlt
    by_cases hq : n / 10 = 0
    · have hn : n < 10 := by omega
      have hmod : n % 10 = n := Nat.mod_eq_of_lt hn
      simp [toDecimalLoop, hq, Nat.digits_of_lt 10 n (by omega) hn, hmod]
    · have hstep := ih (n / 10) (digitChar (n % 10) :: acc) (by omega) (by omega)
      rw [Nat.digits_def' (by norm_num) hpos]
      simp [toDecimalLoop, hq, hstep]

/-- The decimal digits of zero. -/
theorem toDecimal_zero : toDecimal 0 = ['0'] := rfl

/-- The decimal digits of a positive number. -/
theorem toDecimal_pos (n : Nat) (h : 0 < n) :
    toDecimal n = (Nat.digits 10 n).reverse.map digitChar := by
  simp [toDecimal, toDecimalLoop_eq (n + 1) n [] h (by omega)]

/-- The rendering is never empty. -/
theorem toDecimal_ne_nil (n : Nat) : toDecimal n ≠ [] := by
  rcases Nat.eq_zero_or_pos n with h | h
  · subst h; simp [toDecimal_zero]
  · rw [toDecimal_pos n h]
    have hne : Nat.digits 10 n ≠ [] := Nat.digits_ne_nil_iff_ne_zero.mpr (by omega)
    simpa using hne

/-- The rendering consists of decimal digits. -/
theorem toDecimal_isDigit (n : Nat) : ∀ c ∈ toDecimal n, c.isDigit = true := by
  rcases Nat.eq_zero_or_pos n with h | h
  · subst h
    intro c hc
    simp [toDecimal_zero] at hc
    subst hc
    rfl
  · rw [toDecimal_pos n h]
    intro c hc
    simp only [List.mem_map, List.mem_reverse] at hc
    obtain ⟨d, hd, rfl⟩ := hc
    exact digitChar_isDigit d (Nat.digits_lt_base (by norm_num) hd)

/-- The rendering of a positive number does not start with the character 0. -/
theorem toDecimal_head_ne_zero (n : Nat) (h : 0 < n) : (toDecimal n).head? ≠ some '0' := by
  rw [toDecimal_pos n h]
  have hne : Nat.digits 10 n ≠ [] := Nat.digits_ne_nil_iff_ne_zero.mpr (by omega)
  have hlast := Nat.getLast_digit_ne_zero 10 (Nat.pos_iff_ne_zero.mp h)
  intro hhead
  rw [List.head?_map, List.head?_reverse, List.getLast?_eq_getLast _ hne] at hhead
  simp only [Option.map_some', Option.some.injEq] at hhead
  have hmem : (Nat.digits 10 n).getLast hne ∈ Nat.digits 10 n := List.getLast_mem hne
  exact hlast (digitChar_eq_zero _ (Nat.digits_lt_base (by norm_num) hmem) hhead)

/-- Reading digit characters, most significant first, recovers the number whose
digits they are. -/
theorem foldl_digitChar (L : List Nat) (hL : ∀ d ∈ L, d < 10) :
    (L.reverse.map digitChar).foldl (fun n c => n * 10 + (c.toNat - '0'.toNat)) 0
      = Nat.ofDigits 10 L := by
  induction L with
  | nil => rfl
  | cons d t ih =>
    have hd : d < 10 := hL d (List.mem_cons_self d t)
    have ht := ih (fun x hx => hL x (List.mem_cons_of_mem d hx))
    have h0 : ('0' : Char).toNat = 48 := rfl
    rw [List.reverse_cons, List.map_append, List.foldl_append, ht]
    simp only [List.map_cons, List.map_nil, List.foldl_cons, List.foldl_nil,
      digitChar_toNat d hd, h0, Nat.ofDigits_cons]
    omega

/-- Reading the rendering of a number as a decimal number gives the number. -/
theorem toDecimal_toNat? (n : Nat) : (String.mk (toDecimal n)).toNat? = some n := by
  have hall : (String.mk (toDecimal n)).all (fun c => c.isDigit) = true := by
    rw [String.all_eq]
    simpa using toDecimal_isDigit n
  have hne : (String.mk (toDecimal n)).isEmpty = false := by
    have h := toDecimal_ne_nil n
    rw [Bool.eq_false_iff]
    intro hemp
    rw [String.isEmpty_iff] at hemp
    exact h (congrArg String.data hemp)
  have hnat : (String.mk (toDecimal n)).isNat = true := by
    simp [String.isNat, hall, hne]
  rw [String.toNat?, if_pos hnat, String.foldl_eq]
  congr 1
  rcases Nat.eq_zero_or_pos n with h | h
  · subst h; rfl
  · show (toDecimal n).foldl _ 0 = n
    rw [toDecimal_pos n h, foldl_digitChar _ (fun d hd => Nat.digits_lt_base (by norm_num) hd),
      Nat.ofDigits_digits]

/-- Rendering of a non-negative value: the digits, no sign. -/
theorem to_string_natCast (n : Nat) : to_string (n : Int) = String.mk (toDecimal n) := by
  have h : ¬ ((n : Int) < 0) := by omega
  simp [to_string, h]

namespace Cosmos

/-- The amount loop of `buildProtoTxBody` converts every amount, in order, and
leaves the addresses alone. -/
theorem msgSend_amount_loop (amounts : List Proto.Amount) (m : cosmos.bank.v1beta1.MsgSend) :
    forLoop amounts.length
      (fun i (m : cosmos.bank.v1beta1.MsgSend) =>
        { m with amount := m.amount ++ [convertCoin (amounts.getD i default)] }) m
      = { m with amount := m.amount ++ amounts.map convertCoin } := by
  have key : ∀ (n : Nat) (m : cosmos.bank.v1beta1.MsgSend),
      forLoop n
        (fun i (m : cosmos.bank.v1beta1.MsgSend) =>
          { m with amount := m.amount ++ [convertCoin (amounts.getD i default)] }) m
        = { m with amount := m.amount ++
            (List.range n).map (fun i => convertCoin (amounts.getD i default)) } := by
    intro n
    induction n with
    | zero => intro m; simp [forLoop]
    | succ k ih =>
      intro m
      have h := ih m
      simp only [forLoop] at h
      simp only [forLoop, List.range_succ, List.foldl_append, List.foldl_cons, List.foldl_nil,
        List.map_append, List.map_cons, List.map_nil]
      rw [h]
      simp
  rw [key, map_range_getD]

/-- The amount loop of `buildAuthInfo` converts every fee amount, in order, and
leaves the other fee fields alone. -/
theorem fee_amount_loop (amounts : List Proto.Amount) (f : cosmos.Fee) :
    forLoop amounts.length
      (fun i (f : cosmos.Fee) =>
        { f with amount := f.amount ++ [convertCoin (amounts.getD i default)] }) f
      = { f with amount := f.amount ++ amounts.map convertCoin } := by
  have key : ∀ (n : Nat) (f : cosmos.Fee),
      forLoop n
        (fun i (f : cosmos.Fee) =>
          { f with amount := f.amount ++ [convertCoin (amounts.getD i default)] }) f
        = { f with amount := f.amount ++
            (List.range n).map (fun i => convertCoin (amounts.getD i default)) } := by
    intro n
    induction n with
    | zero => intro f; simp [forLoop]
    | succ k ih =>
      intro f
      have h := ih f
      simp only [forLoop] at h
      simp only [forLoop, List.range_succ, List.foldl_append, List.foldl_cons, List.foldl_nil,
        List.map_append, List.map_cons, List.map_nil]
      rw [h]
      simp
  rw [key, map_range_getD]

/-- The type url that the empty namespace gives a record name. -/
theorem GetTypeUrl_empty (name : String) :
    GetTypeUrl name ProtobufAnyNamespacePrefix = "/" ++ name := by
  simp [GetTypeUrl, ProtobufAnyNamespacePrefix]

end Cosmos

namespace Cosmos

open Outcome

/-- Closed form of `buildProtoTxBody` on an input whose first message is a Send. -/
theorem buildProtoTxBody_of_send (pb : ProtobufCodec) (input : Proto.SigningInput)
    (send : Proto.Message.Send) (rest : List Proto.Message)
    (h : input.messages = Proto.Message.send_coins_message send :: rest) :
    buildProtoTxBody pb input = pb.serializeTxBody
      { messages := [Any.PackFrom "cosmos.bank.v1beta1.MsgSend"
          (pb.serializeMsgSend
            { from_address := send.from_address, to_address := send.to_address,
              amount := send.amounts.map convertCoin })
          ProtobufAnyNamespacePrefix],
        memo := input.memo,
        timeout_height := 0 } := by
  have hloop := msgSend_amount_loop send.amounts
    { from_address := send.from_address, to_address := send.to_address, amount := [] }
  simp only [List.getD_eq_getElem?_getD] at hloop
  simp [buildProtoTxBody, h, Proto.Message.has_send_coins_message,
    Proto.Message.get_send_coins_message, hloop]

/-- Closed form of `buildProtoTxBody` on an input without messages. -/
theorem buildProtoTxBody_of_nil (pb : ProtobufCodec) (input : Proto.SigningInput)
    (h : input.messages = []) : buildProtoTxBody pb input = [] := by
  simp [buildProtoTxBody, h]

/-- Closed form of `buildProtoTxBody` on an input whose first message is not a
Send. -/
theorem buildProtoTxBody_of_not_send (pb : ProtobufCodec) (input : Proto.SigningInput)
    (first : Proto.Message) (rest : List Proto.Message)
    (h : input.messages = first :: rest) (hfirst : first.has_send_coins_message = false) :
    buildProtoTxBody pb input = [] := by
  simp [buildProtoTxBody, h, hfirst]

/-- Closed form of `buildAuthInfo` on an accepted key. -/
theorem buildAuthInfo_of_valid (caps : Capabilities) (input : Proto.SigningInput)
    (hkey : caps.crypto.isValid input.private_key = true) :
    buildAuthInfo caps input
      = returned (caps.pb.serializeAuthInfo
          { signer_infos :=
              [{ public_key := some (Any.PackFrom "cosmos.crypto.secp256k1.PubKey"
                   (caps.pb.serializePubKey
                     { key := caps.crypto.getPublicKey input.private_key
                         TWPublicKeyType.TWPublicKeyTypeSECP256k1 })
                   ProtobufAnyNamespacePrefix),
                 mode_info := some (cosmos.ModeInfo.single
                   cosmos.signing.v1beta1.SignMode.SIGN_MODE_DIRECT),
                 sequence := input.sequence }],
            fee := some
              { amount := input.fee.amounts.map convertCoin,
                gas_limit := input.fee.gas,
                payer := "",
                granter := "" } }) := by
  have hloop := fee_amount_loop input.fee.amounts {}
  simp only [List.getD_eq_getElem?_getD] at hloop
  simp [buildAuthInfo, PrivateKey.new_of_valid _ _ hkey, hloop]

/-- On a rejected key `buildAuthInfo` ends the program. -/
theorem buildAuthInfo_of_invalid (caps : Capabilities) (input : Proto.SigningInput)
    (hkey : caps.crypto.isValid input.private_key = false) :
    buildAuthInfo caps input = terminated := by
  simp [buildAuthInfo, PrivateKey.new_of_invalid _ _ hkey]

/-- Closed form of `buildSignature` on an accepted key. -/
theorem buildSignature_of_valid (caps : Capabilities) (input : Proto.SigningInput)
    (body auth : Data) (hkey : caps.crypto.isValid input.private_key = true) :
    buildSignature caps input body auth
      = returned (caps.crypto.sign input.private_key
          (caps.crypto.sha256 (caps.pb.serializeSignDoc
            { body_bytes := body, auth_info_bytes := auth, chain_id := input.chain_id,
              account_number := input.account_number }))
          TWCurve.TWCurveSECP256k1).dropLast := by
  simp [buildSignature, PrivateKey.new_of_valid _ _ hkey]

/-- Closed form of `buildProtoTxRaw`. -/
theorem buildProtoTxRaw_eq (pb : ProtobufCodec) (input : Proto.SigningInput)
    (body auth signature : Data) :
    buildProtoTxRaw pb input body auth signature
      = pb.serializeTxRaw
          { body_bytes := body, auth_info_bytes := auth, signatures := [signature] } := by
  simp [buildProtoTxRaw]

namespace Signer

/-- Closed form of `signProtobuf` on an accepted key, in terms of the four
builders. -/
theorem signProtobuf_of_valid (caps : Capabilities) (input : Proto.SigningInput)
    (hkey : caps.crypto.isValid input.private_key = true) :
    ∃ auth signature : Data,
      buildAuthInfo caps input = returned auth ∧
      buildSignature caps input (buildProtoTxBody caps.pb input) auth = returned signature ∧
      signProtobuf caps input = returned
        { signature := signature,
          json := "",
          serialized :=
            buildProtoTxRaw caps.pb input (buildProtoTxBody caps.pb input) auth signature,
          serialized_base64 := caps.base64Encode
            (buildProtoTxRaw caps.pb input (buildProtoTxBody caps.pb input) auth signature) } := by
  refine ⟨_, _, buildAuthInfo_of_valid caps input hkey,
    buildSignature_of_valid caps input _ _ hkey, ?_⟩
  simp [signProtobuf, buildAuthInfo_of_valid caps input hkey,
    buildSignature_of_valid caps input _ _ hkey]

/-- On a rejected key `signProtobuf` ends the program. -/
theorem signProtobuf_of_invalid (caps : Capabilities) (input : Proto.SigningInput)
    (hkey : caps.crypto.isValid input.private_key = false) :
    signProtobuf caps input = terminated := by
  simp [signProtobuf, buildAuthInfo_of_invalid caps input hkey]

/-- Closed form of `signJsonSerialized` on an accepted key. -/
theorem signJsonSerialized_of_valid (caps : Capabilities) (input : Proto.SigningInput)
    (hkey : caps.crypto.isValid input.private_key = true) :
    signJsonSerialized caps input = returned
      { signature := (caps.crypto.sign input.private_key
          (caps.crypto.sha256 (data (caps.js.dump (caps.js.signaturePreimageJSON input))))
          TWCurve.TWCurveSECP256k1).dropLast,
        json := caps.js.dump (caps.js.transactionJSON input
          (caps.crypto.sign input.private_key
            (caps.crypto.sha256 (data (caps.js.dump (caps.js.signaturePreimageJSON input))))
            TWCurve.TWCurveSECP256k1).dropLast),
        serialized := [],
        serialized_base64 := "" } := by
  simp [signJsonSerialized, PrivateKey.new_of_valid _ _ hkey]

/-- On a rejected key `signJsonSerialized` ends the program. -/
theorem signJsonSerialized_of_invalid (caps : Capabilities) (input : Proto.SigningInput)
    (hkey : caps.crypto.isValid input.private_key = false) :
    signJsonSerialized caps input = terminated := by
  simp [signJsonSerialized, PrivateKey.new_of_invalid _ _ hkey]

/-- Both signing paths are `noexcept`. -/
theorem noexcept_signJsonSerialized (caps : Capabilities) (input : Proto.SigningInput) :
    noexcept (signJsonSerialized caps input) = signJsonSerialized caps input := by
  simp [signJsonSerialized]

/-- Both signing paths are `noexcept`. -/
theorem noexcept_signProtobuf (caps : Capabilities) (input : Proto.SigningInput) :
    noexcept (signProtobuf caps input) = signProtobuf caps input := by
  simp [signProtobuf]

/-- The switch of `sign` on a selector holding `JSON`. -/
theorem sign_of_json (caps : Capabilities) (input : Proto.SigningInput)
    (h : input.signing_mode = caps.modes.JSON) :
    sign caps input = signJsonSerialized caps input := by
  simp [sign, h, noexcept_signJsonSerialized]

/-- The switch of `sign` on a selector holding any other value. -/
theorem sign_of_not_json (caps : Capabilities) (input : Proto.SigningInput)
    (h : input.signing_mode ≠ caps.modes.JSON) :
    sign caps input = signProtobuf caps input := by
  simp [sign, h, noexcept_signProtobuf]

end Signer

/-- Dropping the last byte of 65 keeps the first 64. -/
theorem dropLast_of_length_65 (s : Data) (h : s.length = 65) :
    s.dropLast = s.take 64 ∧ s.dropLast.length = 64 := by
  constructor
  · rw [List.dropLast_eq_take, h]
  · simp [h]

end Cosmos

/-! ## The claims of the specification -/

namespace Reference

/-- The reference signing capability returns 65 bytes on every call. -/
theorem signature_length (keyBytes digestBytes : Data) (curve : TWCurve) :
    (caps.crypto.sign keyBytes digestBytes curve).length = 65 := by
  simp only [caps, crypto, signature, List.length_append, List.length_take,
    List.length_replicate, List.length_singleton]
  omega

/-- The reference key capability accepts the sample key. -/
theorem sampleKey_valid : caps.crypto.isValid sampleKey = true := by decide

end Reference

namespace Cosmos

open Outcome

/-- C1: the signature of the returned output is the value `s` that the signing
capability returned, less its last byte; whenever `s` has 65 bytes the signature
has exactly 64 bytes and is the first 64 bytes of `s`.  This holds on the JSON
path, on the PROTOBUF path and through the dispatch of `sign`, for every input
shape. -/
theorem Signer.signature_is_first_64_bytes (caps : Capabilities) (input : Proto.SigningInput)
    (hkey : caps.crypto.isValid input.private_key = true) :
    (∃ out digest s, Signer.signJsonSerialized caps input = returned out ∧
        s = caps.crypto.sign input.private_key digest TWCurve.TWCurveSECP256k1 ∧
        out.signature = s.dropLast ∧
        (s.length = 65 → out.signature.length = 64 ∧ out.signature = s.take 64)) ∧
    (∃ out digest s, Signer.signProtobuf caps input = returned out ∧
        s = caps.crypto.sign input.private_key digest TWCurve.TWCurveSECP256k1 ∧
        out.signature = s.dropLast ∧
        (s.length = 65 → out.signature.length = 64 ∧ out.signature = s.take 64)) ∧
    (∃ out digest s, Signer.sign caps input = returned out ∧
        s = caps.crypto.sign input.private_key digest TWCurve.TWCurveSECP256k1 ∧
        out.signature = s.dropLast ∧
        (s.length = 65 → out.signature.length = 64 ∧ out.signature = s.take 64)) := by
  have hjson : ∃ out digest s, Signer.signJsonSerialized caps input = returned out ∧
      s = caps.crypto.sign input.private_key digest TWCurve.TWCurveSECP256k1 ∧
      out.signature = s.dropLast ∧
      (s.length = 65 → out.signature.length = 64 ∧ out.signature = s.take 64) :=
    ⟨_, caps.crypto.sha256 (data (caps.js.dump (caps.js.signaturePreimageJSON input))), _,
      Signer.signJsonSerialized_of_valid caps input hkey, rfl, rfl,
      fun hlen => ⟨(dropLast_of_length_65 _ hlen).2, (dropLast_of_length_65 _ hlen).1⟩⟩
  have hproto : ∃ out digest s, Signer.signProtobuf caps input = returned out ∧
      s = caps.crypto.sign input.private_key digest TWCurve.TWCurveSECP256k1 ∧
      out.signature = s.dropLast ∧
      (s.length = 65 → out.signature.length = 64 ∧ out.signature = s.take 64) := by
    obtain ⟨auth, sig, _, hsig, hout⟩ := Signer.signProtobuf_of_valid caps input hkey
    rw [buildSignature_of_valid caps input _ _ hkey] at hsig
    injection hsig with hsig
    refine ⟨_, caps.crypto.sha256 (caps.pb.serializeSignDoc
      { body_bytes := buildProtoTxBody caps.pb input, auth_info_bytes := auth,
        chain_id := input.chain_id, account_number := input.account_number }), _,
      hout, rfl, hsig.symm, ?_⟩
    intro hlen
    show sig.length = 64 ∧ sig = _
    rw [← hsig]
    exact ⟨(dropLast_of_length_65 _ hlen).2, (dropLast_of_length_65 _ hlen).1⟩
  refine ⟨hjson, hproto, ?_⟩
  by_cases hmode : input.signing_mode = caps.modes.JSON
  · rw [Signer.sign_of_json caps input hmode]
    exact hjson
  · rw [Signer.sign_of_not_json caps input hmode]
    exact hproto

/-- C1 on the reference capabilities, whose signing capability returns 65
bytes, at an input with no message. -/
theorem Signer.signature_is_first_64_bytes_witness :
    Reference.caps.crypto.isValid Reference.emptyInput.private_key = true ∧
    ∃ out digest s, Signer.sign Reference.caps Reference.emptyInput = returned out ∧
        s = Reference.caps.crypto.sign Reference.emptyInput.private_key digest
          TWCurve.TWCurveSECP256k1 ∧
        out.signature = s.dropLast ∧ s.length = 65 ∧
        out.signature.length = 64 ∧ out.signature = s.take 64 := by
  obtain ⟨out, digest, s, hout, hs, hsig, h65⟩ :=
    (Signer.signature_is_first_64_bytes Reference.caps Reference.emptyInput
      Reference.sampleKey_valid).2.2
  have hlen : s.length = 65 := by rw [hs]; exact Reference.signature_length _ _ _
  exact ⟨Reference.sampleKey_valid, out, digest, s, hout, hs, hsig, hlen, h65 hlen⟩

/-- C2: on the PROTOBUF path the signature is the signed SHA-256 digest of the
serialized SignDoc, less its last byte (the first 64 bytes of a 65-byte value).
The SignDoc holds the body of `buildProtoTxBody`, the auth-info of
`buildAuthInfo`, the chain id and the account number of the input. -/
theorem Signer.signProtobuf_signs_the_sign_doc (caps : Capabilities)
    (input : Proto.SigningInput) (hkey : caps.crypto.isValid input.private_key = true) :
    ∃ auth out signedHash,
      buildAuthInfo caps input = returned auth ∧
      Signer.signProtobuf caps input = returned out ∧
      signedHash = caps.crypto.sign input.private_key
        (caps.crypto.sha256 (caps.pb.serializeSignDoc
          { body_bytes := buildProtoTxBody caps.pb input,
            auth_info_bytes := auth,
            chain_id := input.chain_id,
            account_number := input.account_number }))
        TWCurve.TWCurveSECP256k1 ∧
      out.signature = signedHash.dropLast ∧
      (signedHash.length = 65 → out.signature = signedHash.take 64) := by
  obtain ⟨auth, sig, hauth, hsig, hout⟩ := Signer.signProtobuf_of_valid caps input hkey
  rw [buildSignature_of_valid caps input _ _ hkey] at hsig
  injection hsig with hsig
  refine ⟨auth, _, _, hauth, hout, rfl, hsig.symm, ?_⟩
  intro hlen
  show sig = _
  rw [← hsig]
  exact (dropLast_of_length_65 _ hlen).1

/-- C2 on the reference capabilities, at the sample Send input. -/
theorem Signer.signProtobuf_signs_the_sign_doc_witness :
    Reference.caps.crypto.isValid Reference.sendInput.private_key = true ∧
    ∃ auth out signedHash,
      buildAuthInfo Reference.caps Reference.sendInput = returned auth ∧
      Signer.signProtobuf Reference.caps Reference.sendInput = returned out ∧
      signedHash = Reference.caps.crypto.sign Reference.sendInput.private_key
        (Reference.caps.crypto.sha256 (Reference.caps.pb.serializeSignDoc
          { body_bytes := buildProtoTxBody Reference.caps.pb Reference.sendInput,
            auth_info_bytes := auth,
            chain_id := Reference.sendInput.chain_id,
            account_number := Reference.sendInput.account_number }))
        TWCurve.TWCurveSECP256k1 ∧
      out.signature = signedHash.dropLast ∧
      (signedHash.length = 65 → out.signature = signedHash.take 64) :=
  ⟨Reference.sampleKey_valid,
    Signer.signProtobuf_signs_the_sign_doc Reference.caps Reference.sendInput
      Reference.sampleKey_valid⟩

/-- C3: on the PROTOBUF path `serialized` is the serialization of a TxRaw whose
body and auth-info are the ones that were signed and whose signature list is the
one signature of the output. -/
theorem Signer.signProtobuf_serialized_is_the_tx_raw (caps : Capabilities)
    (input : Proto.SigningInput) (hkey : caps.crypto.isValid input.private_key = true) :
    ∃ auth out,
      buildAuthInfo caps input = returned auth ∧
      Signer.signProtobuf caps input = returned out ∧
      out.serialized = caps.pb.serializeTxRaw
        { body_bytes := buildProtoTxBody caps.pb input,
          auth_info_bytes := auth,
          signatures := [out.signature] } ∧
      out.signature = (caps.crypto.sign input.private_key
        (caps.crypto.sha256 (caps.pb.serializeSignDoc
          { body_bytes := buildProtoTxBody caps.pb input,
            auth_info_bytes := auth,
            chain_id := input.chain_id,
            account_number := input.account_number }))
        TWCurve.TWCurveSECP256k1).dropLast := by
  obtain ⟨auth, sig, hauth, hsig, hout⟩ := Signer.signProtobuf_of_valid caps input hkey
  rw [buildSignature_of_valid caps input _ _ hkey] at hsig
  injection hsig with hsig
  exact ⟨auth, _, hauth, hout, buildProtoTxRaw_eq caps.pb input _ _ _, hsig.symm⟩

/-- C3 on the reference capabilities, at the sample Send input. -/
theorem Signer.signProtobuf_serialized_is_the_tx_raw_witness :
    Reference.caps.crypto.isValid Reference.sendInput.private_key = true ∧
    ∃ auth out,
      buildAuthInfo Reference.caps Reference.sendInput = returned auth ∧
      Signer.signProtobuf Reference.caps Reference.sendInput = returned out ∧
      out.serialized = Reference.caps.pb.serializeTxRaw
        { body_bytes := buildProtoTxBody Reference.caps.pb Reference.sendInput,
          auth_info_bytes := auth,
          signatures := [out.signature] } ∧
      out.signature = (Reference.caps.crypto.sign Reference.sendInput.private_key
        (Reference.caps.crypto.sha256 (Reference.caps.pb.serializeSignDoc
          { body_bytes := buildProtoTxBody Reference.caps.pb Reference.sendInput,
            auth_info_bytes := auth,
            chain_id := Reference.sendInput.chain_id,
            account_number := Reference.sendInput.account_number }))
        TWCurve.TWCurveSECP256k1).dropLast :=
  ⟨Reference.sampleKey_valid,
    Signer.signProtobuf_serialized_is_the_tx_raw Reference.caps Reference.sendInput
      Reference.sampleKey_valid⟩

end Cosmos

namespace Cosmos

open Outcome

/-- C4: when the first message is a Send, `buildProtoTxBody` returns the
serialization of a TxBody with exactly one message, the MsgSend packed under the
empty namespace (type url `/cosmos.bank.v1beta1.MsgSend`, not the one under
`type.googleapis.com`), with the Send's addresses, its amounts converted by
`convertCoin` in the same number and order, the memo of the input and
timeout height 0. -/
theorem buildProtoTxBody_send_is_one_packed_message (pb : ProtobufCodec)
    (input : Proto.SigningInput) (send : Proto.Message.Send) (rest : List Proto.Message)
    (h : input.messages = Proto.Message.send_coins_message send :: rest) :
    buildProtoTxBody pb input = pb.serializeTxBody
      { messages := [Any.PackFrom "cosmos.bank.v1beta1.MsgSend"
          (pb.serializeMsgSend
            { from_address := send.from_address,
              to_address := send.to_address,
              amount := send.amounts.map convertCoin })
          ProtobufAnyNamespacePrefix],
        memo := input.memo,
        timeout_height := 0 } ∧
    ProtobufAnyNamespacePrefix = "" ∧
    (∀ value : Data,
      (Any.PackFrom "cosmos.bank.v1beta1.MsgSend" value ProtobufAnyNamespacePrefix).type_url
        = "/cosmos.bank.v1beta1.MsgSend" ∧
      (Any.PackFrom "cosmos.bank.v1beta1.MsgSend" value ProtobufAnyNamespacePrefix).type_url
        ≠ (Any.PackFrom "cosmos.bank.v1beta1.MsgSend" value kTypeGoogleApisComNamespace).type_url) ∧
    (send.amounts.map convertCoin).length = send.amounts.length ∧
    (∀ (i : Nat) (hi : i < send.amounts.length),
      (send.amounts.map convertCoin)[i]? = some (convertCoin (send.amounts.get ⟨i, hi⟩))) := by
  refine ⟨buildProtoTxBody_of_send pb input send rest h, rfl, ?_, by simp, ?_⟩
  · intro value
    constructor
    · show GetTypeUrl "cosmos.bank.v1beta1.MsgSend" ProtobufAnyNamespacePrefix
        = "/cosmos.bank.v1beta1.MsgSend"
      decide
    · show GetTypeUrl "cosmos.bank.v1beta1.MsgSend" ProtobufAnyNamespacePrefix
        ≠ GetTypeUrl "cosmos.bank.v1beta1.MsgSend" kTypeGoogleApisComNamespace
      decide
  · intro i hi
    simp [List.getElem?_eq_getElem hi]

/-- C4 on the wire encoding, at the sample Send input. -/
theorem buildProtoTxBody_send_is_one_packed_message_witness :
    Reference.sendInput.messages
      = Proto.Message.send_coins_message Reference.sampleSend :: [] ∧
    buildProtoTxBody Wire.codec Reference.sendInput = Wire.codec.serializeTxBody
      { messages := [Any.PackFrom "cosmos.bank.v1beta1.MsgSend"
          (Wire.codec.serializeMsgSend
            { from_address := Reference.sampleSend.from_address,
              to_address := Reference.sampleSend.to_address,
              amount := Reference.sampleSend.amounts.map convertCoin })
          ProtobufAnyNamespacePrefix],
        memo := Reference.sendInput.memo,
        timeout_height := 0 } :=
  ⟨rfl, (buildProtoTxBody_send_is_one_packed_message Wire.codec Reference.sendInput
    Reference.sampleSend [] rfl).1⟩

/-- C5: on an accepted key `buildAuthInfo` returns the serialization of an
AuthInfo with exactly one signer-info: the secp256k1 public key of the input's
private key packed under the empty namespace, mode single/SIGN_MODE_DIRECT, the
sequence of the input; and a fee with the input's fee amounts converted by
`convertCoin` in order, its gas as gas limit, payer and granter empty.  Two
inputs with the same key, sequence and fee get the same result, whatever their
messages, memo, chain id, account number and selector. -/
theorem buildAuthInfo_is_one_signer_and_fee (caps : Capabilities) (input : Proto.SigningInput)
    (hkey : caps.crypto.isValid input.private_key = true) :
    buildAuthInfo caps input = returned (caps.pb.serializeAuthInfo
      { signer_infos :=
          [{ public_key := some (Any.PackFrom "cosmos.crypto.secp256k1.PubKey"
               (caps.pb.serializePubKey
                 { key := caps.crypto.getPublicKey input.private_key
                     TWPublicKeyType.TWPublicKeyTypeSECP256k1 })
               ProtobufAnyNamespacePrefix),
             mode_info := some (cosmos.ModeInfo.single
               cosmos.signing.v1beta1.SignMode.SIGN_MODE_DIRECT),
             sequence := input.sequence }],
        fee := some
          { amount := input.fee.amounts.map convertCoin,
            gas_limit := input.fee.gas,
            payer := "",
            granter := "" } }) ∧
    (∀ value : Data,
      (Any.PackFrom "cosmos.crypto.secp256k1.PubKey" value ProtobufAnyNamespacePrefix).type_url
        = "/cosmos.crypto.secp256k1.PubKey") ∧
    (input.fee.amounts.map convertCoin).length = input.fee.amounts.length ∧
    (∀ other : Proto.SigningInput,
      other.private_key = input.private_key → other.sequence = input.sequence →
      other.fee = input.fee → buildAuthInfo caps other = buildAuthInfo caps input) := by
  refine ⟨buildAuthInfo_of_valid caps input hkey, ?_, by simp, ?_⟩
  · intro value
    show GetTypeUrl "cosmos.crypto.secp256k1.PubKey" ProtobufAnyNamespacePrefix
      = "/cosmos.crypto.secp256k1.PubKey"
    decide
  · intro other h1 h2 h3
    have hother : caps.crypto.isValid other.private_key = true := by rw [h1]; exact hkey
    rw [buildAuthInfo_of_valid caps input hkey, buildAuthInfo_of_valid caps other hother,
      h1, h2, h3]

/-- C5 on the reference capabilities, at the sample Send input. -/
theorem buildAuthInfo_is_one_signer_and_fee_witness :
    Reference.caps.crypto.isValid Reference.sendInput.private_key = true ∧
    buildAuthInfo Reference.caps Reference.emptyInput
      = buildAuthInfo Reference.caps Reference.sendInput :=
  ⟨Reference.sampleKey_valid,
    (buildAuthInfo_is_one_signer_and_fee Reference.caps Reference.sendInput
      Reference.sampleKey_valid).2.2.2 Reference.emptyInput rfl rfl rfl⟩

end Cosmos

namespace Reference

/-- The reference JSON document of a signed transaction is never the empty text. -/
theorem transactionJSON_ne_empty (input : Cosmos.Proto.SigningInput) (sig : Data) :
    caps.js.dump (caps.js.transactionJSON input sig) ≠ "" := by
  intro h
  have hlen := congrArg String.length h
  simp only [caps, js, String.length_append] at hlen
  have h1 : ("\x7b\"memo\":\"" : String).length = 9 := by decide
  have h2 : ("" : String).length = 0 := rfl
  omega

end Reference

namespace Cosmos

open Outcome

/-- C7: the fields of the mode that was not selected are empty: `json` on the
PROTOBUF path, `serialized` and `serialized_base64` on the JSON path, and
accordingly through the dispatch of `sign`. -/
theorem Signer.other_mode_fields_are_empty (caps : Capabilities) (input : Proto.SigningInput)
    (hkey : caps.crypto.isValid input.private_key = true) :
    (∃ out, Signer.signProtobuf caps input = returned out ∧ out.json = "") ∧
    (∃ out, Signer.signJsonSerialized caps input = returned out ∧
      out.serialized = [] ∧ out.serialized_base64 = "") ∧
    (∃ out, Signer.sign caps input = returned out ∧
      (input.signing_mode = caps.modes.JSON →
        out.serialized = [] ∧ out.serialized_base64 = "") ∧
      (input.signing_mode ≠ caps.modes.JSON → out.json = "")) := by
  have hproto : ∃ out, Signer.signProtobuf caps input = returned out ∧ out.json = "" := by
    obtain ⟨auth, sig, _, _, hout⟩ := Signer.signProtobuf_of_valid caps input hkey
    exact ⟨_, hout, rfl⟩
  have hjson : ∃ out, Signer.signJsonSerialized caps input = returned out ∧
      out.serialized = [] ∧ out.serialized_base64 = "" :=
    ⟨_, Signer.signJsonSerialized_of_valid caps input hkey, rfl, rfl⟩
  refine ⟨hproto, hjson, ?_⟩
  by_cases hmode : input.signing_mode = caps.modes.JSON
  · obtain ⟨out, hout, hfields⟩ := hjson
    exact ⟨out, by rw [Signer.sign_of_json caps input hmode, hout], fun _ => hfields,
      fun hne => absurd hmode hne⟩
  · obtain ⟨out, hout, hfield⟩ := hproto
    exact ⟨out, by rw [Signer.sign_of_not_json caps input hmode, hout],
      fun he => absurd he hmode, fun _ => hfield⟩

/-- C7 on the reference capabilities, at the sample Send input. -/
theorem Signer.other_mode_fields_are_empty_witness :
    Reference.caps.crypto.isValid Reference.sendInput.private_key = true ∧
    (∃ out, Signer.signProtobuf Reference.caps Reference.sendInput = returned out ∧
      out.json = "") ∧
    (∃ out, Signer.signJsonSerialized Reference.caps Reference.sendInput = returned out ∧
      out.serialized = [] ∧ out.serialized_base64 = "") :=
  ⟨Reference.sampleKey_valid,
    (Signer.other_mode_fields_are_empty Reference.caps Reference.sendInput
      Reference.sampleKey_valid).1,
    (Signer.other_mode_fields_are_empty Reference.caps Reference.sendInput
      Reference.sampleKey_valid).2.1⟩

/-- C8: `buildProtoTxBody` returns the empty byte sequence when the message list
is empty and when the first message is not a Send.  The function is total: it
returns on every input. -/
theorem buildProtoTxBody_unsupported_is_empty (pb : ProtobufCodec)
    (input : Proto.SigningInput)
    (h : input.messages = [] ∨
      ∃ first rest, input.messages = first :: rest ∧
        ∀ send, first ≠ Proto.Message.send_coins_message send) :
    buildProtoTxBody pb input = [] := by
  rcases h with h | ⟨first, rest, h, hfirst⟩
  · exact buildProtoTxBody_of_nil pb input h
  · apply buildProtoTxBody_of_not_send pb input first rest h
    cases first with
    | MESSAGE_ONEOF_NOT_SET => rfl
    | send_coins_message s => exact absurd rfl (hfirst s)
    | other_message n c => rfl

/-- C8 on the wire encoding: the input without messages and the input whose
first message is of another kind (followed by a Send) both give the empty body. -/
theorem buildProtoTxBody_unsupported_is_empty_witness :
    buildProtoTxBody Wire.codec Reference.emptyInput = [] ∧
    buildProtoTxBody Wire.codec Reference.otherInput = [] :=
  ⟨buildProtoTxBody_unsupported_is_empty Wire.codec Reference.emptyInput (Or.inl rfl),
    buildProtoTxBody_unsupported_is_empty Wire.codec Reference.otherInput
      (Or.inr ⟨_, _, rfl, fun send h => by cases h⟩)⟩

/-- C9: `convertCoin` keeps the denomination and renders a non-negative amount
as its canonical decimal text: not empty, digits only, no leading zero unless the
text is "0", and reading it as a decimal number gives the amount back; 100 gives
"100" and 0 gives "0". -/
theorem convertCoin_renders_canonical_decimal (d : String) (n : Nat) :
    (convertCoin { denom := d, amount := (n : Int) }).denom = d ∧
    (convertCoin { denom := d, amount := (n : Int) }).amount ≠ "" ∧
    (∀ c ∈ (convertCoin { denom := d, amount := (n : Int) }).amount.data, c.isDigit = true) ∧
    ((convertCoin { denom := d, amount := (n : Int) }).amount.data.head? = some '0' →
      (convertCoin { denom := d, amount := (n : Int) }).amount = "0") ∧
    (convertCoin { denom := d, amount := (n : Int) }).amount.toNat? = some n ∧
    convertCoin { denom := "atom", amount := 100 } = { denom := "atom", amount := "100" } ∧
    convertCoin { denom := d, amount := 0 } = { denom := d, amount := "0" } := by
  have hamount : (convertCoin { denom := d, amount := (n : Int) }).amount
      = String.mk (toDecimal n) := to_string_natCast n
  have hzero : convertCoin { denom := d, amount := 0 } = { denom := d, amount := "0" } := by
    have h := to_string_natCast 0
    rw [toDecimal_zero] at h
    show ({ denom := d, amount := to_string 0 } : cosmos.base.v1beta1.Coin) = _
    rw [show (0 : Int) = ((0 : Nat) : Int) from rfl, h]
  refine ⟨rfl, ?_, ?_, ?_, ?_, by decide, hzero⟩
  · rw [hamount]
    intro h
    exact toDecimal_ne_nil n (congrArg String.data h)
  · rw [hamount]
    exact toDecimal_isDigit n
  · rw [hamount]
    intro hhead
    rcases Nat.eq_zero_or_pos n with h | h
    · subst h; rfl
    · exact absurd hhead (toDecimal_head_ne_zero n h)
  · rw [hamount]
    exact toDecimal_toNat? n

/-- C10: on the JSON path the signature is the signed SHA-256 digest of the text
of `signaturePreimageJSON(input)`, less its last byte (the first 64 bytes of a
65-byte value), and `json` is the text of `transactionJSON` built from the input
and that same signature. -/
theorem Signer.signJsonSerialized_signs_the_preimage (caps : Capabilities)
    (input : Proto.SigningInput) (hkey : caps.crypto.isValid input.private_key = true) :
    ∃ out signedHash,
      Signer.signJsonSerialized caps input = returned out ∧
      signedHash = caps.crypto.sign input.private_key
        (caps.crypto.sha256 (data (caps.js.dump (caps.js.signaturePreimageJSON input))))
        TWCurve.TWCurveSECP256k1 ∧
      out.signature = signedHash.dropLast ∧
      (signedHash.length = 65 → out.signature = signedHash.take 64) ∧
      out.json = caps.js.dump (caps.js.transactionJSON input out.signature) := by
  refine ⟨_, _, Signer.signJsonSerialized_of_valid caps input hkey, rfl, rfl, ?_, rfl⟩
  intro hlen
  exact (dropLast_of_length_65 _ hlen).1

/-- C10 on the reference capabilities, at the sample input with the JSON
selector. -/
theorem Signer.signJsonSerialized_signs_the_preimage_witness :
    Reference.caps.crypto.isValid Reference.jsonInput.private_key = true ∧
    ∃ out signedHash,
      Signer.signJsonSerialized Reference.caps Reference.jsonInput = returned out ∧
      signedHash = Reference.caps.crypto.sign Reference.jsonInput.private_key
        (Reference.caps.crypto.sha256
          (data (Reference.caps.js.dump
            (Reference.caps.js.signaturePreimageJSON Reference.jsonInput))))
        TWCurve.TWCurveSECP256k1 ∧
      out.signature = signedHash.dropLast ∧
      (signedHash.length = 65 → out.signature = signedHash.take 64) ∧
      out.json = Reference.caps.js.dump
        (Reference.caps.js.transactionJSON Reference.jsonInput out.signature) :=
  ⟨Reference.sampleKey_valid,
    Signer.signJsonSerialized_signs_the_preimage Reference.caps Reference.jsonInput
      Reference.sampleKey_valid⟩

end Cosmos

/-! ### Base64 -/

namespace Reference

/-- A byte rebuilt from its value is the byte. -/
theorem ofNat_eq_of_toNat (a : UInt8) (n : Nat) (h : n = a.toNat) : UInt8.ofNat n = a := by
  subst h
  apply UInt8.ext
  exact UInt8.toNat_ofNat_of_lt (UInt8.toNat_lt a)

/-- Every 6-bit value is read back from its character. -/
theorem base64Value_base64Char : ∀ v, v < 64 → base64Value (base64Char v) = some v := by
  decide

/-- No 6-bit value is written as the padding character. -/
theorem base64Char_ne_pad : ∀ v, v < 64 → base64Char v ≠ '=' := by
  decide

/-- Decoding undoes encoding, on the character level. -/
theorem base64DecodeChars_base64Chars (d : Data) :
    base64DecodeChars (base64Chars d) = some d := by
  induction d using base64Chars.induct with
  | case1 => rfl
  | case2 a =>
    have ha := UInt8.toNat_lt a
    have h1 := base64Value_base64Char (a.toNat / 4) (by omega)
    have h2 := base64Value_base64Char (a.toNat % 4 * 16) (by omega)
    have hb : UInt8.ofNat (a.toNat / 4 * 4 + a.toNat % 4) = a :=
      ofNat_eq_of_toNat a _ (by omega)
    simp [base64Chars, base64DecodeChars, h1, h2, hb]
  | case3 a b =>
    have ha := UInt8.toNat_lt a
    have hb := UInt8.toNat_lt b
    have h1 := base64Value_base64Char (a.toNat / 4) (by omega)
    have h2 := base64Value_base64Char (a.toNat % 4 * 16 + b.toNat / 16) (by omega)
    have h3 := base64Value_base64Char (b.toNat % 16 * 4) (by omega)
    have hp := base64Char_ne_pad (b.toNat % 16 * 4) (by omega)
    have e1 : UInt8.ofNat (a.toNat / 4 * 4 + (a.toNat % 4 * 16 + b.toNat / 16) / 16) = a :=
      ofNat_eq_of_toNat a _ (by omega)
    have e2 : UInt8.ofNat ((a.toNat % 4 * 16 + b.toNat / 16) % 16 * 16 + b.toNat % 16)
        = b := ofNat_eq_of_toNat b _ (by omega)
    simp [base64Chars, base64DecodeChars, h1, h2, h3, hp, e1, e2]
  | case4 a b c rest ih =>
    have ha := UInt8.toNat_lt a
    have hb := UInt8.toNat_lt b
    have hc := UInt8.toNat_lt c
    have h1 := base64Value_base64Char (a.toNat / 4) (by omega)
    have h2 := base64Value_base64Char (a.toNat % 4 * 16 + b.toNat / 16) (by omega)
    have h3 := base64Value_base64Char (b.toNat % 16 * 4 + c.toNat / 64) (by omega)
    have h4 := base64Value_base64Char (c.toNat % 64) (by omega)
    have hp3 := base64Char_ne_pad (b.toNat % 16 * 4 + c.toNat / 64) (by omega)
    have hp4 := base64Char_ne_pad (c.toNat % 64) (by omega)
    have e1 : UInt8.ofNat (a.toNat / 4 * 4 + (a.toNat % 4 * 16 + b.toNat / 16) / 16) = a :=
      ofNat_eq_of_toNat a _ (by omega)
    have e2 : UInt8.ofNat ((a.toNat % 4 * 16 + b.toNat / 16) % 16 * 16
        + (b.toNat % 16 * 4 + c.toNat / 64) / 4) = b := ofNat_eq_of_toNat b _ (by omega)
    have e3 : UInt8.ofNat ((b.toNat % 16 * 4 + c.toNat / 64) % 4 * 64 + c.toNat % 64) = c :=
      ofNat_eq_of_toNat c _ (by omega)
    simp [base64Chars, base64DecodeChars, h1, h2, h3, h4, hp3, hp4, e1, e2, e3, ih]

/-- Decoding undoes encoding. -/
theorem base64Decode_base64 (d : Data) : base64Decode (base64 d) = some d :=
  base64DecodeChars_base64Chars d

/-- The base64 text of a non-empty byte sequence is not empty. -/
theorem base64_ne_empty (d : Data) (h : d ≠ []) : base64 d ≠ "" := by
  intro he
  have hd : base64Chars d = [] := congrArg String.data he
  match d, h, hd with
  | [_], _, hd => simp [base64Chars] at hd
  | [_, _], _, hd => simp [base64Chars] at hd
  | _ :: _ :: _ :: _, _, hd => simp [base64Chars] at hd

end Reference

/-! ### The wire encoding writes every element of a repeated field -/

namespace Wire

/-- A varint has at least one byte. -/
theorem varint_ne_nil (n : Nat) : varint n ≠ [] := by
  unfold varint
  rw [show (10 : Nat) = 9 + 1 from rfl, varintLoop]
  split <;> simp

/-- A length-delimited field is never empty, whatever its content. -/
theorem lengthDelimited_ne_nil (field : Nat) (content : Data) :
    lengthDelimited field content ≠ [] := by
  unfold lengthDelimited key
  simp [varint_ne_nil]

/-- A repeated field with an element is not empty. -/
theorem repeatedField_ne_nil {α : Type} (field : Nat) (encode : α → Data) (items : List α)
    (h : items ≠ []) : repeatedField field encode items ≠ [] := by
  match items, h with
  | item :: rest, _ =>
    simp [repeatedField, List.flatMap_cons, lengthDelimited_ne_nil]

/-- The wire form of a TxBody with a message is not empty. -/
theorem encodeTxBody_ne_nil (body : cosmos.TxBody) (h : body.messages ≠ []) :
    codec.serializeTxBody body ≠ [] := by
  show encodeTxBody body ≠ []
  unfold encodeTxBody
  simp [repeatedField_ne_nil 1 encodeAny body.messages h]

/-- The wire form of a TxRaw with a signature is not empty. -/
theorem encodeTxRaw_ne_nil (tx : cosmos.TxRaw) (h : tx.signatures ≠ []) :
    codec.serializeTxRaw tx ≠ [] := by
  show encodeTxRaw tx ≠ []
  unfold encodeTxRaw
  simp [repeatedField_ne_nil 3 (fun sig => sig) tx.signatures h]

end Wire

/-! ### Further closed forms -/

namespace Cosmos

open Outcome

/-- A message that is no Send has no Send case set. -/
theorem has_send_coins_message_of_ne (first : Proto.Message)
    (h : ∀ send, first ≠ Proto.Message.send_coins_message send) :
    first.has_send_coins_message = false := by
  cases first with
  | MESSAGE_ONEOF_NOT_SET => rfl
  | send_coins_message s => exact absurd rfl (h s)
  | other_message n c => rfl

/-- The body of an input of unsupported shape is empty. -/
theorem buildProtoTxBody_of_unsupported (pb : ProtobufCodec) (input : Proto.SigningInput)
    (h : input.messages = [] ∨
      ∃ first rest, input.messages = first :: rest ∧
        ∀ send, first ≠ Proto.Message.send_coins_message send) :
    buildProtoTxBody pb input = [] := by
  rcases h with h | ⟨first, rest, h, hfirst⟩
  · exact buildProtoTxBody_of_nil pb input h
  · exact buildProtoTxBody_of_not_send pb input first rest h
      (has_send_coins_message_of_ne first hfirst)

/-- The body depends on the first message and the memo only. -/
theorem buildProtoTxBody_congr (pb : ProtobufCodec) (a b : Proto.SigningInput)
    (hfirst : a.messages.head? = b.messages.head?) (hmemo : a.memo = b.memo) :
    buildProtoTxBody pb a = buildProtoTxBody pb b := by
  cases ha : a.messages with
  | nil =>
    cases hb : b.messages with
    | nil => rw [buildProtoTxBody_of_nil pb a ha, buildProtoTxBody_of_nil pb b hb]
    | cons m rest => rw [ha, hb] at hfirst; simp at hfirst
  | cons m rest =>
    cases hb : b.messages with
    | nil => rw [ha, hb] at hfirst; simp at hfirst
    | cons m2 rest2 =>
      rw [ha, hb] at hfirst
      simp only [List.head?_cons, Option.some.injEq] at hfirst
      subst hfirst
      cases m with
      | MESSAGE_ONEOF_NOT_SET =>
        rw [buildProtoTxBody_of_not_send pb a _ _ ha rfl,
          buildProtoTxBody_of_not_send pb b _ _ hb rfl]
      | send_coins_message s =>
        rw [buildProtoTxBody_of_send pb a s rest ha, buildProtoTxBody_of_send pb b s rest2 hb,
          hmemo]
      | other_message n c =>
        rw [buildProtoTxBody_of_not_send pb a _ _ ha rfl,
          buildProtoTxBody_of_not_send pb b _ _ hb rfl]

namespace Signer

/-- On a rejected key `sign` ends the program. -/
theorem sign_of_invalid (caps : Capabilities) (input : Proto.SigningInput)
    (hkey : caps.crypto.isValid input.private_key = false) :
    sign caps input = terminated := by
  by_cases hmode : input.signing_mode = caps.modes.JSON
  · rw [sign_of_json caps input hmode, signJsonSerialized_of_invalid caps input hkey]
  · rw [sign_of_not_json caps input hmode, signProtobuf_of_invalid caps input hkey]

/-- A call of `sign` never ends with an exception. -/
theorem sign_ne_thrown (caps : Capabilities) (input : Proto.SigningInput) (w : String) :
    sign caps input ≠ thrown w := by
  unfold sign
  exact noexcept_ne_thrown _ w

/-- Closed form of `signProtobuf` on an accepted key, all fields spelled out. -/
theorem signProtobuf_fields (caps : Capabilities) (input : Proto.SigningInput)
    (hkey : caps.crypto.isValid input.private_key = true) :
    ∃ auth out,
      buildAuthInfo caps input = returned auth ∧
      signProtobuf caps input = returned out ∧
      out.signature = (caps.crypto.sign input.private_key
        (caps.crypto.sha256 (caps.pb.serializeSignDoc
          { body_bytes := buildProtoTxBody caps.pb input,
            auth_info_bytes := auth,
            chain_id := input.chain_id,
            account_number := input.account_number }))
        TWCurve.TWCurveSECP256k1).dropLast ∧
      out.serialized = caps.pb.serializeTxRaw
        { body_bytes := buildProtoTxBody caps.pb input,
          auth_info_bytes := auth,
          signatures := [out.signature] } ∧
      out.serialized_base64 = caps.base64Encode out.serialized ∧
      out.json = "" := by
  obtain ⟨auth, sig, hauth, hsig, hout⟩ := signProtobuf_of_valid caps input hkey
  rw [buildSignature_of_valid caps input _ _ hkey] at hsig
  injection hsig with hsig
  exact ⟨auth, _, hauth, hout, hsig.symm, buildProtoTxRaw_eq caps.pb input _ _ _, rfl, rfl⟩

/-- The body of `signJSON`: the status of the reader is dropped, the key is put
into the record the reader left, the record is signed, the `json` field is
returned. -/
theorem signJSON_eq (caps : Capabilities) (json : String) (key : Data) :
    signJSON caps json key
      = (sign caps { (caps.pb.JsonStringToMessage json {}).2 with private_key := key }).bind
          (fun output => returned output.json) := rfl

end Signer
end Cosmos

namespace Cosmos

open Outcome

/-- On an accepted key `sign` returns an output. -/
theorem Signer.sign_returns_of_valid (caps : Capabilities) (input : Proto.SigningInput)
    (hkey : caps.crypto.isValid input.private_key = true) :
    ∃ out, Signer.sign caps input = returned out := by
  by_cases hmode : input.signing_mode = caps.modes.JSON
  · exact ⟨_, by rw [Signer.sign_of_json caps input hmode,
      Signer.signJsonSerialized_of_valid caps input hkey]⟩
  · obtain ⟨auth, sig, _, _, hout⟩ := Signer.signProtobuf_of_valid caps input hkey
    exact ⟨_, by rw [Signer.sign_of_not_json caps input hmode, hout]⟩

end Cosmos

/-! ## The claims on errors and unsupported inputs -/

namespace Cosmos

open Outcome

/-- C11, as amended: for every text, well-formed or not, `signJSON` does not
read the status of the parse; it puts the key into the record as the reader left
it, signs that record with `sign` and returns the `json` field.  No error is
ever reported to the caller: with an accepted key the call returns. -/
theorem Signer.signJSON_signs_whatever_was_parsed (caps : Capabilities) (json : String)
    (key : Data) :
    Signer.signJSON caps json key
      = (Signer.sign caps
          { (caps.pb.JsonStringToMessage json {}).2 with private_key := key }).bind
          (fun output => returned output.json) ∧
    (∀ w, Signer.signJSON caps json key ≠ thrown w) ∧
    (caps.crypto.isValid key = true →
      ∃ out,
        Signer.sign caps { (caps.pb.JsonStringToMessage json {}).2 with private_key := key }
          = returned out ∧
        Signer.signJSON caps json key = returned out.json) := by
  refine ⟨Signer.signJSON_eq caps json key, ?_, ?_⟩
  · intro w h
    rw [Signer.signJSON_eq] at h
    cases hs : Signer.sign caps
        { (caps.pb.JsonStringToMessage json {}).2 with private_key := key } with
    | returned out => rw [hs] at h; cases h
    | thrown w2 => exact Signer.sign_ne_thrown _ _ _ hs
    | terminated => rw [hs] at h; cases h
  · intro hkey
    obtain ⟨out, hout⟩ := Signer.sign_returns_of_valid caps
      { (caps.pb.JsonStringToMessage json {}).2 with private_key := key } hkey
    refine ⟨out, hout, ?_⟩
    rw [Signer.signJSON_eq, hout]
    rfl

/-- C11 on the reference capabilities, at the empty JSON object. -/
theorem Signer.signJSON_signs_whatever_was_parsed_witness :
    Reference.caps.crypto.isValid Reference.sampleKey = true ∧
    ∃ out,
      Signer.sign Reference.caps
        { (Reference.caps.pb.JsonStringToMessage "\x7b\x7d" {}).2 with
          private_key := Reference.sampleKey } = returned out ∧
      Signer.signJSON Reference.caps "\x7b\x7d" Reference.sampleKey = returned out.json :=
  ⟨Reference.sampleKey_valid,
    (Signer.signJSON_signs_whatever_was_parsed Reference.caps "\x7b\x7d"
      Reference.sampleKey).2.2 Reference.sampleKey_valid⟩

/-- C11 as stated fails: the reference reader rejects the text `not json` and
leaves the record untouched, yet `signJSON` returns, without any error, the
signed JSON document of that default record: the preimage was hashed and
signed. -/
theorem Signer.signJSON_signs_a_malformed_text :
    Reference.malformedText = "not json" ∧
    (Reference.caps.pb.JsonStringToMessage Reference.malformedText {}).1 = false ∧
    (Reference.caps.pb.JsonStringToMessage Reference.malformedText {}).2 = {} ∧
    Signer.signJSON Reference.caps Reference.malformedText Reference.sampleKey
      = returned (Reference.caps.js.dump (Reference.caps.js.transactionJSON Reference.unsetInput
          (Reference.caps.crypto.sign Reference.sampleKey
            (Reference.caps.crypto.sha256 (data (Reference.caps.js.dump
              (Reference.caps.js.signaturePreimageJSON Reference.unsetInput))))
            TWCurve.TWCurveSECP256k1).dropLast)) ∧
    Reference.caps.js.dump (Reference.caps.js.transactionJSON Reference.unsetInput
      (Reference.caps.crypto.sign Reference.sampleKey
        (Reference.caps.crypto.sha256 (data (Reference.caps.js.dump
          (Reference.caps.js.signaturePreimageJSON Reference.unsetInput))))
        TWCurve.TWCurveSECP256k1).dropLast) ≠ "" := by
  have hparse : (Reference.caps.pb.JsonStringToMessage Reference.malformedText {})
      = (false, {}) := by decide
  refine ⟨rfl, by rw [hparse], by rw [hparse], ?_, Reference.transactionJSON_ne_empty _ _⟩
  rw [Signer.signJSON_eq, hparse]
  have hin : ({ ((false, {}) : Bool × Proto.SigningInput).2 with
      private_key := Reference.sampleKey } : Proto.SigningInput) = Reference.unsetInput := rfl
  rw [hin, Signer.sign_of_json Reference.caps Reference.unsetInput rfl,
    Signer.signJsonSerialized_of_valid Reference.caps Reference.unsetInput
      Reference.sampleKey_valid]
  rfl

/-- C12, as amended: on key bytes that the key capability rejects the signing
call reports nothing: the exception of the key constructor cannot leave the
`noexcept` signing functions, so the program is ended; the caller gets neither an
error nor a SigningOutput, from `sign`, from both paths, from `buildAuthInfo` and
from `signJSON`. -/
theorem Signer.sign_rejected_key_ends_the_program (caps : Capabilities)
    (input : Proto.SigningInput) (hkey : caps.crypto.isValid input.private_key = false) :
    Signer.sign caps input = terminated ∧
    Signer.signJsonSerialized caps input = terminated ∧
    Signer.signProtobuf caps input = terminated ∧
    buildAuthInfo caps input = terminated ∧
    (∀ w, Signer.sign caps input ≠ thrown w) ∧
    (∀ out, Signer.sign caps input ≠ returned out) ∧
    (∀ text, Signer.signJSON caps text input.private_key = terminated) := by
  have hsign := Signer.sign_of_invalid caps input hkey
  refine ⟨hsign, Signer.signJsonSerialized_of_invalid caps input hkey,
    Signer.signProtobuf_of_invalid caps input hkey, buildAuthInfo_of_invalid caps input hkey,
    ?_, ?_, ?_⟩
  · intro w h
    rw [hsign] at h
    cases h
  · intro out h
    rw [hsign] at h
    cases h
  · intro text
    have hrun := Signer.sign_of_invalid caps
      { (caps.pb.JsonStringToMessage text {}).2 with private_key := input.private_key } hkey
    rw [Signer.signJSON_eq, hrun]
    rfl

/-- C12 on the reference capabilities, at the sample input with a 3-byte key. -/
theorem Signer.sign_rejected_key_ends_the_program_witness :
    Reference.caps.crypto.isValid Reference.shortKeyInput.private_key = false ∧
    Signer.signProtobuf Reference.caps Reference.shortKeyInput = terminated ∧
    Signer.signJsonSerialized Reference.caps Reference.shortKeyInput = terminated :=
  ⟨by decide,
    (Signer.sign_rejected_key_ends_the_program Reference.caps Reference.shortKeyInput
      (by decide)).2.2.1,
    (Signer.sign_rejected_key_ends_the_program Reference.caps Reference.shortKeyInput
      (by decide)).2.1⟩

/-- C12 as stated fails: the reference key capability rejects the 3-byte key of
this input, and `sign` ends the program instead of reporting an error. -/
theorem Signer.sign_aborts_on_a_rejected_key :
    Reference.shortKeyInput.private_key = [1, 2, 3] ∧
    Reference.caps.crypto.isValid Reference.shortKeyInput.private_key = false ∧
    Signer.sign Reference.caps Reference.shortKeyInput = terminated ∧
    ¬ ∃ w, Signer.sign Reference.caps Reference.shortKeyInput = thrown w := by
  have hsign := Signer.sign_of_invalid Reference.caps Reference.shortKeyInput (by decide)
  refine ⟨rfl, by decide, hsign, ?_⟩
  rintro ⟨w, h⟩
  rw [hsign] at h
  cases h

end Cosmos

namespace Cosmos

open Outcome

/-- C13, as amended: on an input of unsupported shape in PROTOBUF mode the
signing call returns an output in which only the body inside the envelope is
empty: the signature is the signed digest of the SignDoc with empty body, less
its last byte (64 bytes for a 65-byte signed hash), `serialized` is the TxRaw of
the empty body, the auth-info and that signature, `serialized_base64` is its
base64 text; `json`, the field of the other mode, is empty. -/
theorem Signer.sign_unsupported_fields (caps : Capabilities) (input : Proto.SigningInput)
    (hkey : caps.crypto.isValid input.private_key = true)
    (hmode : input.signing_mode ≠ caps.modes.JSON)
    (hshape : input.messages = [] ∨
      ∃ first rest, input.messages = first :: rest ∧
        ∀ send, first ≠ Proto.Message.send_coins_message send) :
    ∃ auth out signedHash,
      buildAuthInfo caps input = returned auth ∧
      Signer.sign caps input = returned out ∧
      signedHash = caps.crypto.sign input.private_key
        (caps.crypto.sha256 (caps.pb.serializeSignDoc
          { body_bytes := [],
            auth_info_bytes := auth,
            chain_id := input.chain_id,
            account_number := input.account_number }))
        TWCurve.TWCurveSECP256k1 ∧
      out.signature = signedHash.dropLast ∧
      (signedHash.length = 65 → out.signature.length = 64) ∧
      out.serialized = caps.pb.serializeTxRaw
        { body_bytes := [], auth_info_bytes := auth, signatures := [out.signature] } ∧
      out.serialized_base64 = caps.base64Encode out.serialized ∧
      out.json = "" := by
  obtain ⟨auth, out, hauth, hout, hsig, hser, hb64, hjson⟩ :=
    Signer.signProtobuf_fields caps input hkey
  rw [buildProtoTxBody_of_unsupported caps.pb input hshape] at hsig hser
  refine ⟨auth, out, _, hauth, ?_, rfl, hsig, ?_, hser, hb64, hjson⟩
  · rw [Signer.sign_of_not_json caps input hmode, hout]
  · intro hlen
    rw [hsig]
    exact (dropLast_of_length_65 _ hlen).2

/-- C13 on the reference capabilities, at the sample input without messages. -/
theorem Signer.sign_unsupported_fields_witness :
    Reference.caps.crypto.isValid Reference.emptyInput.private_key = true ∧
    Reference.emptyInput.signing_mode ≠ Reference.caps.modes.JSON ∧
    Reference.emptyInput.messages = [] ∧
    ∃ auth out signedHash,
      buildAuthInfo Reference.caps Reference.emptyInput = returned auth ∧
      Signer.sign Reference.caps Reference.emptyInput = returned out ∧
      signedHash = Reference.caps.crypto.sign Reference.emptyInput.private_key
        (Reference.caps.crypto.sha256 (Reference.caps.pb.serializeSignDoc
          { body_bytes := [],
            auth_info_bytes := auth,
            chain_id := Reference.emptyInput.chain_id,
            account_number := Reference.emptyInput.account_number }))
        TWCurve.TWCurveSECP256k1 ∧
      out.signature = signedHash.dropLast ∧
      (signedHash.length = 65 → out.signature.length = 64) ∧
      out.serialized = Reference.caps.pb.serializeTxRaw
        { body_bytes := [], auth_info_bytes := auth, signatures := [out.signature] } ∧
      out.serialized_base64 = Reference.caps.base64Encode out.serialized ∧
      out.json = "" :=
  ⟨Reference.sampleKey_valid, by decide, rfl,
    Signer.sign_unsupported_fields Reference.caps Reference.emptyInput
      Reference.sampleKey_valid (by decide) (Or.inl rfl)⟩

/-- C13 as stated fails: for the sample input without messages, in PROTOBUF
mode, `sign` returns an output whose signature has 64 bytes and whose
`serialized` and `serialized_base64` fields are not empty. -/
theorem Signer.sign_unsupported_output_is_not_empty :
    Reference.emptyInput.messages = [] ∧
    Reference.emptyInput.signing_mode = Reference.caps.modes.Protobuf ∧
    ∃ out, Signer.sign Reference.caps Reference.emptyInput = returned out ∧
      out.signature.length = 64 ∧ out.serialized ≠ [] ∧ out.serialized_base64 ≠ "" := by
  obtain ⟨auth, out, _, hout, hsig, hser, hb64, _⟩ :=
    Signer.signProtobuf_fields Reference.caps Reference.emptyInput Reference.sampleKey_valid
  have hne : out.serialized ≠ [] := by
    rw [hser]
    exact Wire.encodeTxRaw_ne_nil _ (by simp)
  refine ⟨rfl, rfl, out, ?_, ?_, hne, ?_⟩
  · rw [Signer.sign_of_not_json Reference.caps Reference.emptyInput (by decide), hout]
  · rw [hsig]
    exact (dropLast_of_length_65 _ (Reference.signature_length _ _ _)).2
  · rw [hb64]
    exact Reference.base64_ne_empty _ hne

/-- C14: on the PROTOBUF path `serialized_base64` is the base64 text of exactly
the bytes of `serialized`; with the standard base64 encoding, decoding it gives
those bytes, the serialized TxRaw, back. -/
theorem Signer.signProtobuf_base64_decodes_to_serialized (caps : Capabilities)
    (input : Proto.SigningInput) (hkey : caps.crypto.isValid input.private_key = true)
    (hstandard : caps.base64Encode = Reference.base64) :
    ∃ auth out,
      buildAuthInfo caps input = returned auth ∧
      Signer.signProtobuf caps input = returned out ∧
      out.serialized_base64 = caps.base64Encode out.serialized ∧
      out.serialized_base64 = Reference.base64 out.serialized ∧
      Reference.base64Decode out.serialized_base64 = some out.serialized ∧
      Reference.base64Decode out.serialized_base64 = some (caps.pb.serializeTxRaw
        { body_bytes := buildProtoTxBody caps.pb input,
          auth_info_bytes := auth,
          signatures := [out.signature] }) := by
  obtain ⟨auth, out, hauth, hout, _, hser, hb64, _⟩ :=
    Signer.signProtobuf_fields caps input hkey
  have hstd : out.serialized_base64 = Reference.base64 out.serialized := by
    rw [hb64, hstandard]
  have hdec : Reference.base64Decode out.serialized_base64 = some out.serialized := by
    rw [hstd]
    exact Reference.base64Decode_base64 _
  refine ⟨auth, out, hauth, hout, hb64, hstd, hdec, ?_⟩
  rw [hdec, hser]

/-- C14 on the reference capabilities, at the sample Send input. -/
theorem Signer.signProtobuf_base64_decodes_to_serialized_witness :
    Reference.caps.crypto.isValid Reference.sendInput.private_key = true ∧
    Reference.caps.base64Encode = Reference.base64 ∧
    ∃ auth out,
      buildAuthInfo Reference.caps Reference.sendInput = returned auth ∧
      Signer.signProtobuf Reference.caps Reference.sendInput = returned out ∧
      out.serialized_base64 = Reference.caps.base64Encode out.serialized ∧
      out.serialized_base64 = Reference.base64 out.serialized ∧
      Reference.base64Decode out.serialized_base64 = some out.serialized ∧
      Reference.base64Decode out.serialized_base64 = some (Reference.caps.pb.serializeTxRaw
        { body_bytes := buildProtoTxBody Reference.caps.pb Reference.sendInput,
          auth_info_bytes := auth,
          signatures := [out.signature] }) :=
  ⟨Reference.sampleKey_valid, rfl,
    Signer.signProtobuf_base64_decodes_to_serialized Reference.caps Reference.sendInput
      Reference.sampleKey_valid rfl⟩

end Cosmos

/-! ## The claims on what the body and the result depend on -/

namespace Cosmos

open Outcome

/-- C16: on an input of unsupported shape in PROTOBUF mode signing is not
stopped.  The body is empty, the auth-info is built, the SignDoc with empty
`body_bytes` is hashed and signed, and the output carries the signature, of 64
bytes when the signing capability returns 65, and the serialized TxRaw with empty
`body_bytes`, which is not empty when the serializer writes every element of a
repeated field. -/
theorem Signer.signProtobuf_unsupported_still_signs (caps : Capabilities)
    (input : Proto.SigningInput)
    (hkey : caps.crypto.isValid input.private_key = true)
    (hshape : input.messages = [] ∨
      ∃ first rest, input.messages = first :: rest ∧
        ∀ send, first ≠ Proto.Message.send_coins_message send)
    (h65 : ∀ digest : Data,
      (caps.crypto.sign input.private_key digest TWCurve.TWCurveSECP256k1).length = 65)
    (hrepeated : ∀ tx : cosmos.TxRaw, tx.signatures ≠ [] → caps.pb.serializeTxRaw tx ≠ []) :
    ∃ auth out,
      buildProtoTxBody caps.pb input = [] ∧
      buildAuthInfo caps input = returned auth ∧
      Signer.signProtobuf caps input = returned out ∧
      (input.signing_mode ≠ caps.modes.JSON → Signer.sign caps input = returned out) ∧
      out.signature = (caps.crypto.sign input.private_key
        (caps.crypto.sha256 (caps.pb.serializeSignDoc
          { body_bytes := [],
            auth_info_bytes := auth,
            chain_id := input.chain_id,
            account_number := input.account_number }))
        TWCurve.TWCurveSECP256k1).dropLast ∧
      out.signature.length = 64 ∧
      out.serialized = caps.pb.serializeTxRaw
        { body_bytes := [], auth_info_bytes := auth, signatures := [out.signature] } ∧
      out.serialized ≠ [] := by
  obtain ⟨auth, out, hauth, hout, hsig, hser, _, _⟩ :=
    Signer.signProtobuf_fields caps input hkey
  have hbody := buildProtoTxBody_of_unsupported caps.pb input hshape
  rw [hbody] at hsig hser
  refine ⟨auth, out, hbody, hauth, hout, ?_, hsig, ?_, hser, ?_⟩
  · intro hmode
    rw [Signer.sign_of_not_json caps input hmode, hout]
  · rw [hsig]
    exact (dropLast_of_length_65 _ (h65 _)).2
  · rw [hser]
    exact hrepeated _ (by simp)

/-- C16 on the reference capabilities, at the input whose first message is not a
Send: the hypotheses hold for the reference signature and the wire encoding. -/
theorem Signer.signProtobuf_unsupported_still_signs_witness :
    Reference.caps.crypto.isValid Reference.otherInput.private_key = true ∧
    (∀ digest : Data,
      (Reference.caps.crypto.sign Reference.otherInput.private_key digest
        TWCurve.TWCurveSECP256k1).length = 65) ∧
    (∀ tx : cosmos.TxRaw, tx.signatures ≠ [] → Reference.caps.pb.serializeTxRaw tx ≠ []) ∧
    ∃ auth out,
      buildProtoTxBody Reference.caps.pb Reference.otherInput = [] ∧
      buildAuthInfo Reference.caps Reference.otherInput = returned auth ∧
      Signer.signProtobuf Reference.caps Reference.otherInput = returned out ∧
      (Reference.otherInput.signing_mode ≠ Reference.caps.modes.JSON →
        Signer.sign Reference.caps Reference.otherInput = returned out) ∧
      out.signature = (Reference.caps.crypto.sign Reference.otherInput.private_key
        (Reference.caps.crypto.sha256 (Reference.caps.pb.serializeSignDoc
          { body_bytes := [],
            auth_info_bytes := auth,
            chain_id := Reference.otherInput.chain_id,
            account_number := Reference.otherInput.account_number }))
        TWCurve.TWCurveSECP256k1).dropLast ∧
      out.signature.length = 64 ∧
      out.serialized = Reference.caps.pb.serializeTxRaw
        { body_bytes := [], auth_info_bytes := auth, signatures := [out.signature] } ∧
      out.serialized ≠ [] :=
  ⟨Reference.sampleKey_valid, fun digest => Reference.signature_length _ digest _,
    Wire.encodeTxRaw_ne_nil,
    Signer.signProtobuf_unsupported_still_signs Reference.caps Reference.otherInput
      Reference.sampleKey_valid (Or.inr ⟨_, _, rfl, fun send h => by cases h⟩)
      (fun digest => Reference.signature_length _ digest _) Wire.encodeTxRaw_ne_nil⟩

/-- C17: when the serializer writes every element of a repeated field,
`buildProtoTxBody` returns the empty byte sequence exactly on the inputs of
unsupported shape: if the first message is a Send, whatever it holds, the body is
not empty. -/
theorem buildProtoTxBody_empty_iff_unsupported (pb : ProtobufCodec)
    (hrepeated : ∀ body : cosmos.TxBody, body.messages ≠ [] → pb.serializeTxBody body ≠ [])
    (input : Proto.SigningInput) :
    (buildProtoTxBody pb input = [] ↔
      (input.messages = [] ∨
        ∃ first rest, input.messages = first :: rest ∧
          ∀ send, first ≠ Proto.Message.send_coins_message send)) ∧
    (∀ send rest, input.messages = Proto.Message.send_coins_message send :: rest →
      buildProtoTxBody pb input ≠ []) := by
  have hsend : ∀ send rest, input.messages = Proto.Message.send_coins_message send :: rest →
      buildProtoTxBody pb input ≠ [] := by
    intro send rest h
    rw [buildProtoTxBody_of_send pb input send rest h]
    exact hrepeated _ (by simp)
  refine ⟨⟨?_, buildProtoTxBody_of_unsupported pb input⟩, hsend⟩
  intro hempty
  cases hm : input.messages with
  | nil => exact Or.inl rfl
  | cons first rest =>
    refine Or.inr ⟨first, rest, rfl, ?_⟩
    intro send hfirst
    subst hfirst
    exact hsend send rest hm hempty

/-- C17 on the wire encoding, which writes every message of a TxBody: the body
of a Send with all fields empty is not empty. -/
theorem buildProtoTxBody_empty_iff_unsupported_witness :
    (∀ body : cosmos.TxBody, body.messages ≠ [] → Wire.codec.serializeTxBody body ≠ []) ∧
    Reference.blankSendInput.messages = Proto.Message.send_coins_message {} :: [] ∧
    buildProtoTxBody Wire.codec Reference.blankSendInput ≠ [] :=
  ⟨Wire.encodeTxBody_ne_nil, rfl,
    (buildProtoTxBody_empty_iff_unsupported Wire.codec Wire.encodeTxBody_ne_nil
      Reference.blankSendInput).2 {} [] rfl⟩

/-- C18: the body depends on the first message and the memo only: two inputs
that agree on them get the same body, whatever else they carry; and on the
PROTOBUF path an input is signed as the same input with only its first message
is. -/
theorem buildProtoTxBody_ignores_later_messages (caps : Capabilities)
    (input other : Proto.SigningInput)
    (hfirst : input.messages.head? = other.messages.head?)
    (hmemo : input.memo = other.memo) :
    buildProtoTxBody caps.pb input = buildProtoTxBody caps.pb other ∧
    buildProtoTxBody caps.pb input
      = buildProtoTxBody caps.pb { input with messages := input.messages.take 1 } ∧
    Signer.signProtobuf caps input
      = Signer.signProtobuf caps { input with messages := input.messages.take 1 } := by
  have htake : buildProtoTxBody caps.pb input
      = buildProtoTxBody caps.pb { input with messages := input.messages.take 1 } := by
    apply buildProtoTxBody_congr
    · show input.messages.head? = (input.messages.take 1).head?
      cases input.messages <;> rfl
    · rfl
  refine ⟨buildProtoTxBody_congr caps.pb input other hfirst hmemo, htake, ?_⟩
  unfold Signer.signProtobuf
  rw [← htake]
  rfl

/-- C18 on the reference capabilities: the sample input and the input that
follows the same Send with two more messages, under another fee, chain id,
account number, sequence and key, have the same body. -/
theorem buildProtoTxBody_ignores_later_messages_witness :
    Reference.crowdedInput.messages.head? = Reference.sendInput.messages.head? ∧
    Reference.crowdedInput.memo = Reference.sendInput.memo ∧
    Reference.crowdedInput.messages.length = 3 ∧
    buildProtoTxBody Reference.caps.pb Reference.crowdedInput
      = buildProtoTxBody Reference.caps.pb Reference.sendInput :=
  ⟨rfl, rfl, rfl,
    (buildProtoTxBody_ignores_later_messages Reference.caps Reference.crowdedInput
      Reference.sendInput rfl rfl).1⟩

/-- C19: `signJSON` returns the `json` field of the output and nothing else: when
the parsed record is dispatched to the PROTOBUF path the result is the empty
text.  The key that signs is the `key` argument: texts whose parsed records
differ in the private key only give the same result. -/
theorem Signer.signJSON_returns_json_only (caps : Capabilities) (json : String) (key : Data)
    (hkey : caps.crypto.isValid key = true) :
    (∃ out,
      Signer.sign caps { (caps.pb.JsonStringToMessage json {}).2 with private_key := key }
        = returned out ∧
      Signer.signJSON caps json key = returned out.json) ∧
    ((caps.pb.JsonStringToMessage json {}).2.signing_mode ≠ caps.modes.JSON →
      Signer.signJSON caps json key = returned "") ∧
    (∀ other : String,
      ({ (caps.pb.JsonStringToMessage other {}).2 with private_key := [] } :
          Proto.SigningInput)
        = { (caps.pb.JsonStringToMessage json {}).2 with private_key := [] } →
      Signer.signJSON caps other key = Signer.signJSON caps json key) := by
  refine ⟨?_, ?_, ?_⟩
  · obtain ⟨out, hout⟩ := Signer.sign_returns_of_valid caps
      { (caps.pb.JsonStringToMessage json {}).2 with private_key := key } hkey
    refine ⟨out, hout, ?_⟩
    rw [Signer.signJSON_eq, hout]
    rfl
  · intro hmode
    obtain ⟨auth, out, _, hout, _, _, _, hjson⟩ := Signer.signProtobuf_fields caps
      { (caps.pb.JsonStringToMessage json {}).2 with private_key := key } hkey
    have hrun := Signer.sign_of_not_json caps
      { (caps.pb.JsonStringToMessage json {}).2 with private_key := key } hmode
    rw [Signer.signJSON_eq, hrun, hout]
    show returned out.json = returned ""
    rw [hjson]
  · intro other hsame
    have hrecord : ({ (caps.pb.JsonStringToMessage other {}).2 with private_key := key } :
        Proto.SigningInput)
        = { (caps.pb.JsonStringToMessage json {}).2 with private_key := key } := by
      have h := congrArg (fun r : Proto.SigningInput => { r with private_key := key }) hsame
      exact h
    rw [Signer.signJSON_eq, Signer.signJSON_eq, hrecord]

/-- C19 on the reference capabilities, at the text that sets the selector to
`Protobuf`. -/
theorem Signer.signJSON_returns_json_only_witness :
    Reference.caps.crypto.isValid Reference.sampleKey = true ∧
    (Reference.caps.pb.JsonStringToMessage Reference.protobufText {}).2.signing_mode
      ≠ Reference.caps.modes.JSON ∧
    Signer.signJSON Reference.caps Reference.protobufText Reference.sampleKey = returned "" :=
  ⟨Reference.sampleKey_valid, by decide,
    (Signer.signJSON_returns_json_only Reference.caps Reference.protobufText
      Reference.sampleKey Reference.sampleKey_valid).2.1 (by decide)⟩

end Cosmos

end TW
